import Mathlib

/-!
Verification of the `dictionaries_manager` core against its design document.

The development shallowly embeds the Python sources:
  * `src/config/settings.py`   — `Settings`, `LanguageCatalog`, theme resolution
  * `src/services/localization_service.py` — `LocalizationService`

JSON trees are modelled by `JValue` (numbers as integers: the only number the
configuration code reads is `schema_version`, an integer).  Python dicts are
modelled as association lists with first-match lookup, in-place update and
append-on-new-key, matching the insertion-order semantics of `dict` (parsed
JSON objects have unique keys).  Fallible Python code is modelled in
`Except PyErr`.  File-system state is passed explicitly.
-/

set_option autoImplicit false

namespace DictMan

/-- A parsed JSON value (the trees `json.loads` produces). -/
inductive JValue where
  | null
  | bool (b : Bool)
  | num (n : Int)
  | str (s : String)
  | arr (elems : List JValue)
  | obj (fields : List (String × JValue))
  deriving Repr

/-- Python exceptions that the embedded code can raise. -/
inductive PyErr where
  | attributeError
  | typeError
  | valueError (msg : String)
  deriving Repr, DecidableEq

/-- Python truthiness (`bool(x)`) of a JSON value: `None`, `False`, `0`, `""`,
`[]` and an empty dict are falsy, everything else is truthy. -/
def pyTruthy : JValue → Bool
  | .null => false
  | .bool b => b
  | .num n => n != 0
  | .str s => s != ""
  | .arr xs => !xs.isEmpty
  | .obj kvs => !kvs.isEmpty

namespace PyDict

variable {α : Type}

/-- First-match lookup, `d.get(k)` on a dict modelled as an association list. -/
def lookup? (kvs : List (String × α)) (k : String) : Option α :=
  match kvs with
  | [] => none
  | (k', v) :: rest => if k' = k then some v else lookup? rest k

/-- `k in d`. -/
def contains (kvs : List (String × α)) (k : String) : Bool :=
  (lookup? kvs k).isSome

/-- `d.get(k, dflt)`. -/
def getD (kvs : List (String × α)) (k : String) (dflt : α) : α :=
  (lookup? kvs k).getD dflt

/-- `d[k] = v`: replace the value of an existing key in place, otherwise
append the new key at the end (Python dicts keep insertion order). -/
def set (kvs : List (String × α)) (k : String) (v : α) : List (String × α) :=
  match kvs with
  | [] => [(k, v)]
  | (k', v') :: rest =>
      if k' = k then (k', v) :: rest else (k', v') :: set rest k v

/-- The key list, `list(d.keys())`. -/
def keys (kvs : List (String × α)) : List String :=
  kvs.map Prod.fst

end PyDict

/-- ASCII lower-casing of one character, as performed by `str.lower()` on the
ASCII range (language codes and theme names in this program are ASCII). -/
def charLower (c : Char) : Char :=
  if c = 'A' then 'a' else if c = 'B' then 'b' else if c = 'C' then 'c'
  else if c = 'D' then 'd' else if c = 'E' then 'e' else if c = 'F' then 'f'
  else if c = 'G' then 'g' else if c = 'H' then 'h' else if c = 'I' then 'i'
  else if c = 'J' then 'j' else if c = 'K' then 'k' else if c = 'L' then 'l'
  else if c = 'M' then 'm' else if c = 'N' then 'n' else if c = 'O' then 'o'
  else if c = 'P' then 'p' else if c = 'Q' then 'q' else if c = 'R' then 'r'
  else if c = 'S' then 's' else if c = 'T' then 't' else if c = 'U' then 'u'
  else if c = 'V' then 'v' else if c = 'W' then 'w' else if c = 'X' then 'x'
  else if c = 'Y' then 'y' else if c = 'Z' then 'z' else c

/-- `s.lower()` restricted to ASCII. -/
def pyLower (s : String) : String :=
  String.mk (s.data.map charLower)

/-- The list of lower-case ASCII letters (the possible outputs of
`charLower` on upper-case input). -/
def lowerLetters : List Char :=
  ['a', 'b', 'c', 'd', 'e', 'f', 'g', 'h', 'i', 'j', 'k', 'l', 'm',
   'n', 'o', 'p', 'q', 'r', 's', 't', 'u', 'v', 'w', 'x', 'y', 'z']

/-- `code.replace("-", "_")`, character by character (the pattern is a single
character, so `str.replace` is a per-character map). -/
def dashU (c : Char) : Char := if c = '-' then '_' else c

/-- `_normalize_lang` (settings.py lines 17-23) on the character list of the
input: replace `-` by `_`, keep the part before the first `_`
(`code.split("_", 1)[0]`), default to `"en"` when the input or that part is
empty (`if not code` / `base or "en"`), and lower-case the result. -/
def normList (l : List Char) : List Char :=
  if l = [] then "en".data
  else if (l.map dashU).takeWhile (fun c => c != '_') = [] then "en".data
  else ((l.map dashU).takeWhile (fun c => c != '_')).map charLower

/-- `_normalize_lang` applied to an actual string. -/
def normStr (s : String) : String := String.mk (normList s.data)

/-- `_normalize_lang` on a JSON value: a falsy argument yields `"en"`
(`if not code: return "en"`); a truthy non-string has no `.replace` method and
raises `AttributeError`. -/
def normalizeLangJ (v : JValue) : Except PyErr String :=
  if pyTruthy v = false then .ok "en"
  else
    match v with
    | .str s => .ok (normStr s)
    | _ => .error .attributeError

/-- `int(x)` on a JSON value (used for `schema_version`).  Python accepts
ints, bools and integer-shaped strings and rejects everything else. -/
def pyInt : JValue → Except PyErr Int
  | .num n => .ok n
  | .bool b => .ok (if b then 1 else 0)
  | .str s =>
      match s.trim.toInt? with
      | some n => .ok n
      | none => .error (.valueError "invalid literal for int")
  | _ => .error .typeError

/-- `Path(x)` accepts a string and raises `TypeError` otherwise (the inputs
here are parsed JSON values). -/
def pathOf : JValue → Except PyErr String
  | .str s => .ok s
  | _ => .error .typeError

/-- `data.get(k, {}) or {}` followed by the `isinstance(…, dict)` check of
`Settings.__init__`: any non-dict (or falsy) value is coerced to an empty
dict. -/
def objOrEmpty : JValue → List (String × JValue)
  | .obj kvs => kvs
  | _ => []

/-- The fields of a value known to be a JSON object. -/
def JValue.fields : JValue → List (String × JValue)
  | .obj kvs => kvs
  | _ => []

mutual
/-- Python `repr()` of a parsed JSON value (string escaping inside `repr` of a
string is not modelled; no claim exercises it). -/
def pyRepr : JValue → String
  | .null => "None"
  | .bool true => "True"
  | .bool false => "False"
  | .num n => toString n
  | .str s => "\x27" ++ s ++ "\x27"
  | .arr xs => "[" ++ pyReprList xs ++ "]"
  | .obj kvs => "\x7b" ++ pyReprFields kvs ++ "\x7d"
def pyReprList : List JValue → String
  | [] => ""
  | [x] => pyRepr x
  | x :: y :: rest => pyRepr x ++ ", " ++ pyReprList (y :: rest)
def pyReprFields : List (String × JValue) → String
  | [] => ""
  | [(k, v)] => "\x27" ++ k ++ "\x27: " ++ pyRepr v
  | (k, v) :: p :: rest => "\x27" ++ k ++ "\x27: " ++ pyRepr v ++ ", " ++ pyReprFields (p :: rest)
end

/-- Python `str()` of a parsed JSON value. -/
def pyStr : JValue → String
  | .str s => s
  | v => pyRepr v

/-!  ### LanguageCatalog  (settings.py lines 56-108)  -/

/-- One entry of `LanguageCatalog.by_code`.  The source stores a dict with
keys `code`, `name`, `native`, `rtl`; `name`/`native` keep whatever JSON value
the row supplied (no type coercion in the source), `rtl` is stored as the
integer `1` or `0`. -/
structure LangRow where
  code : String
  name : JValue
  native : JValue
  rtl : Int
  deriving Repr

/-- The dict literal built for one catalog row (settings.py lines 82-87). -/
def mkLangRow (row : List (String × JValue)) (code : String) : LangRow :=
  let nameV := PyDict.getD row "name" .null
  let nativeV := PyDict.getD row "native" .null
  { code := code
    name := if pyTruthy nameV then nameV else .str code
    native := if pyTruthy nativeV then nativeV
              else if pyTruthy nameV then nameV else .str code
    rtl :=
      let r := pyLower (pyStr (PyDict.getD row "rtl" (.num 0)))
      if r == "1" || r == "true" then 1 else 0 }

/-- The row loop of `LanguageCatalog._load` (lines 79-87).  A non-dict row has
no `.get` and raises inside the loop; the surrounding `except` then discards
everything built so far (`none` here). -/
def catalogInsertRows (acc : List (String × LangRow)) :
    List JValue → Option (List (String × LangRow))
  | [] => some acc
  | .obj row :: rest =>
      let code := normStr (pyStr (PyDict.getD row "code" (.str "")))
      catalogInsertRows
        (if code != "" then PyDict.set acc code (mkLangRow row code) else acc) rest
  | _ => none

/-- Built-in fallback catalog used when `languages.json` is absent
(lines 69-75). -/
def fallbackFull : List (String × LangRow) :=
  [("en", ⟨"en", .str "English", .str "English", 0⟩),
   ("cs", ⟨"cs", .str "Czech", .str "Česky", 0⟩),
   ("ar", ⟨"ar", .str "Arabic", .str "العربية", 1⟩)]

/-- Minimal fallback kept when parsing `languages.json` fails (lines 88-92). -/
def fallbackMin : List (String × LangRow) :=
  [("en", ⟨"en", .str "English", .str "English", 0⟩)]

/-- The external environment of a `Settings` construction: the result of
`detect_system_language()` (locale / environment variables), path existence,
and `json.loads` over a file's text (`none` models a parse exception).  Only
consulted for paths that exist. -/
structure Env where
  detect : String
  pathExists : String → Bool
  parseFile : String → Option JValue

/-- `LanguageCatalog._load` (lines 67-92): a missing file keeps the three-entry
fallback; an unparseable file (or a row exception) keeps the minimal fallback;
a parse result that is not a list leaves the catalog EMPTY (`by_code` stays
`{}` from `__init__`). -/
def LanguageCatalog.load (env : Env) (path : String) : List (String × LangRow) :=
  if env.pathExists path = false then fallbackFull
  else
    match env.parseFile path with
    | none => fallbackMin
    | some (.arr rows) =>
        match catalogInsertRows [] rows with
        | some m => m
        | none => fallbackMin
    | some _ => []

/-- `LanguageCatalog.exists` (lines 94-95): membership of the normalized
code. -/
def catalogExists (cat : List (String × LangRow)) (code : String) : Bool :=
  PyDict.contains cat (normStr code)

/-!  ### Settings construction  (settings.py lines 177-253, 456-513)  -/

/-- The configuration record owned by `Settings` after `__init__`.  Fields
that the source reads without any type coercion (`write_protection`, `theme`,
`themes_path`) stay JSON values; fields the source passes through `Path()` or
`_normalize_lang` are strings whenever construction succeeds. -/
structure SettingsR where
  schema_version : Int
  locales_path : String
  jsons_path : String
  languages_path : String
  countries_path : String
  write_protection : JValue
  theme : JValue
  themes_path : JValue
  by_code : List (String × LangRow)
  ui_language : String
  fallback_language : String
  default_language : String
  backends : List (String × JValue)
  translators : List (String × JValue)
  middleware : List (String × JValue)
  communication : List (String × JValue)
  auth : List (String × JValue)
  first_run : Option Bool
  warnings : List String
  errors : List String
  deriving Repr

/-- The raw values `__init__` extracts from the data tree before language
normalization and soft validation run.  `locales_path` / `jsons_path` are kept
as JSON values here because the source only passes them to `Path()` later,
inside `_soft_validate`. -/
structure RawConfig where
  schema_version : Int
  locales_path_v : JValue
  jsons_path_v : JValue
  languages_path : String
  countries_path : String
  write_protection : JValue
  theme : JValue
  themes_path : JValue
  ui0 : JValue
  fb0 : JValue
  df0 : JValue
  backends : List (String × JValue)
  translators : List (String × JValue)
  middleware : List (String × JValue)
  communication : List (String × JValue)
  auth : List (String × JValue)
  first_run : Option Bool

/-- The extraction part of `Settings.__init__` (lines 177-247), in source
order: `int()` on `schema_version` can raise first, then `Path()` on
`languages_path` / `countries_path` (lines 209-210); everything else is read
with defaults and dict coercions and cannot raise.  A data tree that is not a
dict has no `.get` and raises `AttributeError`. -/
def parseConfig (data : JValue) : Except PyErr RawConfig :=
  match data with
  | .obj dataObj =>
    let app := objOrEmpty (PyDict.getD dataObj "app" (.obj []))
    match pyInt (PyDict.getD app "schema_version" (.num 1)) with
    | .error e => .error e
    | .ok schema =>
    match pathOf (PyDict.getD app "languages_path" (.str "jsons/languages.json")) with
    | .error e => .error e
    | .ok languages_path =>
    match pathOf (PyDict.getD app "countries_path" (.str "jsons/countries.json")) with
    | .error e => .error e
    | .ok countries_path =>
    let i18n := objOrEmpty (PyDict.getD dataObj "i18n" (.obj []))
    Except.ok {
      schema_version := schema
      locales_path_v := PyDict.getD app "locales_path" (.str "locales")
      jsons_path_v := PyDict.getD app "jsons_path" (.str "jsons")
      languages_path := languages_path
      countries_path := countries_path
      write_protection := PyDict.getD app "write_protection" (.str "strict")
      theme := PyDict.getD app "theme" (.str "as400")
      themes_path := PyDict.getD app "themes_path" (.str "src/ui/themes")
      ui0 := PyDict.getD i18n "ui_language" (.str "")
      fb0 := PyDict.getD i18n "fallback_language" (.str "en")
      df0 := PyDict.getD i18n "default_language" (.str "en")
      backends := objOrEmpty (PyDict.getD dataObj "backends" (.obj []))
      translators := objOrEmpty (PyDict.getD dataObj "translators" (.obj []))
      middleware := objOrEmpty (PyDict.getD dataObj "middleware" (.obj []))
      communication := objOrEmpty (PyDict.getD dataObj "communication" (.obj []))
      auth := objOrEmpty (PyDict.getD dataObj "auth" (.obj []))
      first_run :=
        match PyDict.getD dataObj "_first_run" .null with
        | .bool b => some b
        | _ => none }
  | _ => .error .attributeError

/-- The repaired code: keep `code` when the catalog check passed, else the
substituted `"en"` (lines 468-486). -/
def langPick (cond : Bool) (code : String) : String := if cond then code else "en"

/-- The warning recorded when a check failed: none when it passed. -/
def condWarn (cond : Bool) (w : String) : List String := if cond then [] else [w]

def warnUnknownUi (code : String) : String :=
  "Unknown UI language \x27" ++ code ++ "\x27 - falling back to \x27en\x27."
def warnUnknownFallback (code : String) : String :=
  "Unknown fallback language \x27" ++ code ++ "\x27 - using \x27en\x27."
def warnUnknownDefault (code : String) : String :=
  "Unknown default language \x27" ++ code ++ "\x27 - using \x27en\x27."
def warnJsonsMissing (p : String) : String :=
  "Helper JSONs folder \x27" ++ p ++ "\x27 does not exist yet. It will be created on demand."
def warnLocalesMissing (p : String) : String :=
  "Locales path \x27" ++ p ++ "\x27 does not exist yet. It will be created on demand."

/-- Catalog loading, `_post_init_language_normalization` (lines 456-486) and
`_soft_validate` (lines 488-513).  Normalizing a truthy non-string i18n value
raises; `Path()` inside `_soft_validate` raises on a non-string
`jsons_path` / `locales_path`.  The plugin-section `isinstance` re-checks of
`_soft_validate` can never fire right after `__init__`'s own coercions and
are modelled as no-ops. -/
def finishConfig (env : Env) (r : RawConfig) : Except PyErr SettingsR :=
  let cat := LanguageCatalog.load env r.languages_path
  match normalizeLangJ r.fb0 with
  | .error e => .error e
  | .ok fb1 =>
  match normalizeLangJ r.df0 with
  | .error e => .error e
  | .ok df1 =>
  match normalizeLangJ (if pyTruthy r.ui0 then r.ui0 else .str env.detect) with
  | .error e => .error e
  | .ok ui1 =>
  let ui := langPick (catalogExists cat ui1) ui1
  let w1 := condWarn (catalogExists cat ui1) (warnUnknownUi ui1)
  let fb := langPick (catalogExists cat fb1) fb1
  let w2 := condWarn (catalogExists cat fb1) (warnUnknownFallback fb1)
  let df := langPick (catalogExists cat df1) df1
  let w3 := condWarn (catalogExists cat df1) (warnUnknownDefault df1)
  match pathOf r.jsons_path_v with
  | .error e => .error e
  | .ok jsons_path =>
  let w4 := condWarn (env.pathExists jsons_path) (warnJsonsMissing jsons_path)
  match pathOf r.locales_path_v with
  | .error e => .error e
  | .ok locales_path =>
  let w5 := condWarn (env.pathExists locales_path) (warnLocalesMissing locales_path)
  Except.ok
    { schema_version := r.schema_version
      locales_path := locales_path
      jsons_path := jsons_path
      languages_path := r.languages_path
      countries_path := r.countries_path
      write_protection := r.write_protection
      theme := r.theme
      themes_path := r.themes_path
      by_code := cat
      ui_language := ui
      fallback_language := fb
      default_language := df
      backends := r.backends
      translators := r.translators
      middleware := r.middleware
      communication := r.communication
      auth := r.auth
      first_run := r.first_run
      warnings := w1 ++ w2 ++ w3 ++ w4 ++ w5
      errors := [] }

/-- `Settings.__init__(data, path)` as a whole (the `path` argument only
feeds `_abs`-style absolutization, which is abstracted into the environment's
path keys). -/
def construct (env : Env) (data : JValue) : Except PyErr SettingsR :=
  match parseConfig data with
  | .error e => .error e
  | .ok r => finishConfig env r

/-!  ### Settings persistence  (settings.py lines 257-328, 517-550)  -/

/-- The state of one file on disk, as far as `Settings.load` inspects it:
absent, present but stripping to the empty string, or present with the result
of `json.loads` over its text (`.error msg` models the parse exception and its
message). -/
inductive FileContent where
  | missing
  | blank
  | text (parsed : Except String JValue)

/-- A write performed on the file system (path, new content). -/
abbrev FileWrite := String × FileContent

/-- The in-memory default configuration synthesized by `Settings.load`
(lines 265-287; the identical tree is repeated at lines 299-317). -/
def loadDefaultsTree : JValue :=
  .obj
    [("_first_run", .bool true),
     ("app", .obj
       [("schema_version", .num 1),
        ("locales_path", .str "locales"),
        ("jsons_path", .str "jsons"),
        ("languages_path", .str "jsons/languages.json"),
        ("countries_path", .str "jsons/countries.json"),
        ("theme", .str "as400"),
        ("themes_path", .str "src/ui/themes"),
        ("write_protection", .str "strict")]),
     ("i18n", .obj
       [("ui_language", .str ""),
        ("fallback_language", .str "en"),
        ("default_language", .str "en")]),
     ("auth", .obj []),
     ("backends", .obj []),
     ("translators", .obj []),
     ("middleware", .obj []),
     ("communication", .obj [])]

/-- The warning recorded when the settings file cannot be parsed
(lines 320-322); `ex` is the exception's text. -/
def parseFailMsg (path ex : String) : String :=
  "Settings file \x27" ++ path ++ "\x27 could not be parsed (using in-memory defaults): " ++ ex

/-- `Settings.load(path)` (lines 257-328).  `inst` is the class-level
singleton `_instance`; when present it is returned unchanged.  Otherwise a
missing file builds the defaults; a blank or unparseable file builds the same
defaults and appends the parse warning (the empty-file case raises
`ValueError("Empty settings file")` into the same handler).  The returned
write list records every file write the call performs: none. -/
def Settings.load (inst : Option SettingsR) (env : Env) (path : String)
    (file : FileContent) : Except PyErr (SettingsR × List FileWrite) :=
  match inst with
  | some s => .ok (s, [])
  | none =>
    match file with
    | .missing =>
        match construct env loadDefaultsTree with
        | .error e => .error e
        | .ok s => .ok (s, [])
    | .blank =>
        match construct env loadDefaultsTree with
        | .error e => .error e
        | .ok s =>
            .ok ({ s with warnings := s.warnings ++ [parseFailMsg path "Empty settings file"] }, [])
    | .text (.error ex) =>
        match construct env loadDefaultsTree with
        | .error e => .error e
        | .ok s => .ok ({ s with warnings := s.warnings ++ [parseFailMsg path ex] }, [])
    | .text (.ok data) =>
        match construct env data with
        | .error e => .error e
        | .ok s => .ok (s, [])

/-- The JSON tree `Settings.save` serializes (lines 517-541), in the source's
key order.  Transient fields (warnings, errors, catalogs) are excluded and the
first-run marker is written as `False`. -/
def saveTree (s : SettingsR) : JValue :=
  .obj
    [("app", .obj
       [("schema_version", .num s.schema_version),
        ("locales_path", .str s.locales_path),
        ("jsons_path", .str s.jsons_path),
        ("languages_path", .str s.languages_path),
        ("countries_path", .str s.countries_path),
        ("write_protection", s.write_protection),
        ("theme", s.theme),
        ("themes_path", s.themes_path)]),
     ("i18n", .obj
       [("ui_language", .str s.ui_language),
        ("fallback_language", .str s.fallback_language),
        ("default_language", .str s.default_language)]),
     ("auth", .obj s.auth),
     ("backends", .obj s.backends),
     ("translators", .obj s.translators),
     ("middleware", .obj s.middleware),
     ("communication", .obj s.communication),
     ("_first_run", .bool false)]

/-- `Settings.save` (line 542): one write of the serialized tree; the written
text is non-blank (it starts with a brace) and `json.loads` recovers the
tree. -/
def Settings.save (s : SettingsR) (path : String) : List FileWrite :=
  [(path, .text (.ok (saveTree s)))]

/-- `Settings.is_first_run` (lines 544-550). -/
def is_first_run (s : SettingsR) : Bool :=
  match s.first_run with
  | none => s.auth.isEmpty && s.backends.isEmpty && s.translators.isEmpty && s.middleware.isEmpty
  | some b => b

/-!  ### Theme resolution  (settings.py lines 424-452)  -/

def baseCss : String := "src/ui/styles/base.tcss"

/-- `Settings.resolve_theme_files` (lines 424-452).  `jp dir filename` models
`Path(dir) / filename`; `fs` is file existence.  The source first evaluates
`(name or self.theme or "as400").lower()` — a truthy non-string theme has no
`.lower` — then `Path(self.themes_path)`, which needs a string. -/
def resolve_theme_files (jp : String → String → String) (fs : String → Bool)
    (s : SettingsR) (name : Option String) : Except PyErr (List String) :=
  let nv : JValue :=
    match name with
    | some n => if n != "" then .str n else if pyTruthy s.theme then s.theme else .str "as400"
    | none => if pyTruthy s.theme then s.theme else .str "as400"
  match nv with
  | .str t =>
    let nm := pyLower t
    match pathOf s.themes_path with
    | .error e => .error e
    | .ok tp =>
      let candidate_custom := jp tp (nm ++ ".custom.tcss")
      let candidate_system := jp tp (nm ++ ".tcss")
      if fs candidate_custom then Except.ok [baseCss, candidate_custom]
      else if fs candidate_system then Except.ok [baseCss, candidate_system]
      else
        let fallback_custom := jp tp "as400.custom.tcss"
        let fallback_system := jp tp "as400.tcss"
        if fs fallback_custom then Except.ok [baseCss, fallback_custom]
        else if fs fallback_system then Except.ok [baseCss, fallback_system]
        else Except.ok [baseCss]
  | _ => .error .attributeError

/-!  ### Plugin option accessors  (settings.py lines 565-583)  -/

/-- `getattr(self, category)` for the four plugin categories. -/
def sectionOf (s : SettingsR) (cat : String) : Option (List (String × JValue)) :=
  if cat = "backends" then some s.backends
  else if cat = "translators" then some s.translators
  else if cat = "middleware" then some s.middleware
  else if cat = "communication" then some s.communication
  else none

/-- `setattr`-style update of one plugin section. -/
def setSection (s : SettingsR) (cat : String) (sec : List (String × JValue)) : SettingsR :=
  if cat = "backends" then { s with backends := sec }
  else if cat = "translators" then { s with translators := sec }
  else if cat = "middleware" then { s with middleware := sec }
  else if cat = "communication" then { s with communication := sec }
  else s

/-- `Settings.get_plugin_options` (lines 565-575): unknown categories raise
`ValueError`; a name that is absent, or whose options value is not a dict, is
(re)bound to `{}` in the section, and the (possibly fresh) options dict is
returned together with the mutated record. -/
def get_plugin_options (s : SettingsR) (cat name : String) :
    Except PyErr (JValue × SettingsR) :=
  match sectionOf s cat with
  | none => .error (.valueError ("Unknown plugin category: " ++ cat))
  | some sec =>
      match PyDict.lookup? sec name with
      | some (.obj kvs) => .ok (.obj kvs, s)
      | _ => .ok (.obj [], setSection s cat (PyDict.set sec name (.obj [])))

/-- `Settings.plugin_enabled` (lines 581-583): `bool(opts.get("enabled", False))`
over the options returned by `get_plugin_options` (which may have mutated the
record). -/
def plugin_enabled (s : SettingsR) (cat name : String) : Except PyErr (Bool × SettingsR) :=
  match get_plugin_options s cat name with
  | .error e => .error e
  | .ok (opts, s') => .ok (pyTruthy (PyDict.getD opts.fields "enabled" (.bool false)), s')

/-!  ### LocalizationService  (localization_service.py)

The service calls `self.settings._abs(...)` to absolutize the locale
directory (line 44).  `Settings.__init__` defines `_abs` only as a local
function nested inside itself (settings.py lines 182-184) and never binds it
to the instance or the class, so that attribute lookup raises
`AttributeError`.  The embedding is therefore parameterized by `absBound`,
whether the lookup succeeds: the program as written corresponds to
`absBound = false` (see `absResolves`), the evidently intended binding (the
local function takes `self` and is called as a method here and in
`settings_screen.py` line 109) to `absBound = true`.  -/

/-- Attribute names bound on a `Settings` instance by `__init__`
(settings.py lines 178-247: the `self.x = …` assignments). -/
def settingsInstanceAttrs : List String :=
  ["_path", "_root", "warnings", "errors", "schema_version", "locales_path",
   "jsons_path", "languages_path", "countries_path", "write_protection",
   "theme", "themes_path", "languages", "countries", "ui_language",
   "fallback_language", "default_language", "backends", "translators",
   "middleware", "communication", "auth", "_first_run"]

/-- Names bound in the `Settings` class body (lines 163-607): the class
variable, the methods and the property. -/
def settingsClassAttrs : List String :=
  ["_instance", "load", "_parse_theme_meta", "_scan_themes", "available_themes",
   "resolve_theme_files", "_post_init_language_normalization", "_soft_validate",
   "save", "is_first_run", "is_rtl", "language_display", "get_plugin_options",
   "set_plugin_enabled", "plugin_enabled", "helper_json_path",
   "should_open_settings"]

/-- Python attribute lookup `settings.a`: the instance dict first, then the
class. -/
def settingsHasAttr (a : String) : Bool :=
  settingsInstanceAttrs.contains a || settingsClassAttrs.contains a

/-- Whether `settings._abs` resolves.  `_abs` is in neither attribute list —
it is a local function of `__init__` — so it does not. -/
def absResolves : Bool := settingsHasAttr "_abs"

/-- One locale file on disk: its modification time (an integer; only equality
of mtimes matters to the source) and the result of `json.loads` over its text
(`none` models the parse exception swallowed at lines 75-76). -/
structure LocFile where
  mtime : Int
  parsed : Option JValue

/-- The file system as the service sees it: path ↦ file, `none` = absent. -/
abbrev LocFS := String → Option LocFile

/-- The service's mutable state: `_cache` and `_mtimes` (lines 37-38).  The
runtime translation cache is not touched by any claim. -/
structure LocState where
  cache : List (String × List (String × JValue))
  mtimes : List (String × Int)

def LocState.empty : LocState := ⟨[], []⟩

/-- The locale file path `_lang_file` would build for `lang`:
`_abs(locales_path) / f"{lang.lower()}.json"` (absolutization is abstracted
into the path key). -/
def locPath (s : SettingsR) (lang : String) : String :=
  s.locales_path ++ "/" ++ pyLower lang ++ ".json"

/-- `_lang_file` (lines 43-45):
`self.settings._abs(self.settings.locales_path) / f"{lang.lower()}.json"`.
With `_abs` bound the path is `locPath`; without it the attribute lookup
raises. -/
def lang_fileW (absBound : Bool) (s : SettingsR) (lang : String) : Except PyErr String :=
  match absBound with
  | true => .ok (locPath s lang)
  | false => .error .attributeError

/-- `_file_mtime` (lines 47-52): `stat().st_mtime` with `FileNotFoundError` —
and only it — caught and turned into `-1.0`.  An `AttributeError` from
`_lang_file` propagates. -/
def file_mtimeW (absBound : Bool) (s : SettingsR) (fs : LocFS) (lang : String) :
    Except PyErr Int :=
  match lang_fileW absBound s lang with
  | .error e => .error e
  | .ok fp =>
    match fs fp with
    | none => Except.ok (-1)
    | some f => Except.ok f.mtime

/-- `_load_lang` (lines 54-80): return the cached dict when the language is
cached and the cached mtime equals the current one; otherwise (re)read —
a missing file, a parse exception, or a non-dict parse all yield `{}` —
and refresh cache and mtime. -/
def load_langW (absBound : Bool) (s : SettingsR) (st : LocState) (fs : LocFS)
    (lang : String) : Except PyErr (List (String × JValue) × LocState) :=
  let lg := pyLower lang
  match file_mtimeW absBound s fs lg with
  | .error e => .error e
  | .ok current =>
  let hit := PyDict.contains st.cache lg &&
    (match PyDict.lookup? st.mtimes lg with
     | some m => m == current
     | none => false)
  if hit then Except.ok ((PyDict.lookup? st.cache lg).getD [], st)
  else
    match lang_fileW absBound s lg with
    | .error e => .error e
    | .ok fp =>
    let data : List (String × JValue) :=
      match fs fp with
      | none => []
      | some f =>
          match f.parsed with
          | some (.obj kvs) => kvs
          | _ => []
    Except.ok (data, ⟨PyDict.set st.cache lg data, PyDict.set st.mtimes lg current⟩)

/-- `_write_lang` (lines 82-88): write the dict (the file's new mtime `newM`
comes from the clock), then refresh cache and mtime from the file system. -/
def write_langW (absBound : Bool) (s : SettingsR) (st : LocState) (fs : LocFS)
    (newM : Int) (lang : String) (data : List (String × JValue)) :
    Except PyErr (LocState × LocFS) :=
  match lang_fileW absBound s lang with
  | .error e => .error e
  | .ok fp =>
  let fs' : LocFS := fun p => if p = fp then some ⟨newM, some (.obj data)⟩ else fs p
  match file_mtimeW absBound s fs' lang with
  | .error e => .error e
  | .ok m =>
    Except.ok
      (⟨PyDict.set st.cache (pyLower lang) data, PyDict.set st.mtimes (pyLower lang) m⟩, fs')

/-- The removal loop of `sync_language_with_default` (lines 116-119). -/
def syncRemove (src tgt : List (String × JValue)) : List (String × JValue) × Bool :=
  (tgt.filter (fun kv => PyDict.contains src kv.1),
   tgt.any (fun kv => !PyDict.contains src kv.1))

/-- One pass of the addition loop (lines 122-125) over the remaining
canonical keys, carrying the growing dict and the changed flag. -/
def syncAddGo : List (String × JValue) → List (String × JValue) × Bool →
    List (String × JValue) × Bool
  | [], acc => acc
  | kv :: rest, acc =>
      syncAddGo rest
        (if PyDict.contains acc.1 kv.1 then acc else (acc.1 ++ [(kv.1, .str "")], true))

/-- The addition loop (lines 122-125); membership is tested against the
growing dict, and missing keys are appended with the empty-string value. -/
def syncAdd (src tgt : List (String × JValue)) : List (String × JValue) × Bool :=
  syncAddGo src (tgt, false)

/-- The dictionary produced by one full sync pass over `tgt` against the
canonical dictionary `src`: removal loop then addition loop. -/
def syncResult (src tgt : List (String × JValue)) : List (String × JValue) :=
  (syncAdd src (syncRemove src tgt).1).1

/-- `sync_language_with_default` (lines 103-129): make the target's key set
equal the default language's, persist only if something changed, and report
whether it did. -/
def syncW (absBound : Bool) (s : SettingsR) (st : LocState) (fs : LocFS)
    (newM : Int) (lang : String) : Except PyErr (Bool × LocState × LocFS) :=
  let lg := pyLower lang
  match load_langW absBound s st fs s.default_language with
  | .error e => .error e
  | .ok (src, st1) =>
  match load_langW absBound s st1 fs lg with
  | .error e => .error e
  | .ok (tgt, st2) =>
  let (tgt1, removed) := syncRemove src tgt
  let (tgt2, added) := syncAdd src tgt1
  let changed := removed || added
  if changed then
    match write_langW absBound s st2 fs newM lg tgt2 with
    | .error e => .error e
    | .ok (st3, fs') => Except.ok (true, st3, fs')
  else Except.ok (false, st2, fs)

/-- Truthiness of `d.get(key)` (`None` when absent). -/
def pyTruthyOpt : Option JValue → Bool
  | some v => pyTruthy v
  | none => false

/-- `x or y` on strings. -/
def pyOrS (a b : String) : String := if a = "" then b else a

/-- `LocalizationService.get` (lines 221-239) with `fmt=None` (with no
substitution map the source returns the selected value unchanged; `str.format`
itself is not embedded, no claim supplies `fmt`): requested-or-UI language's
truthy value, else default language's truthy value, else the key. -/
def getW (absBound : Bool) (s : SettingsR) (st : LocState) (fs : LocFS)
    (key : String) (lang : Option String) : Except PyErr (JValue × LocState) :=
  let primary := pyLower (pyOrS (lang.getD "") s.ui_language)
  let dflt := pyLower s.default_language
  match load_langW absBound s st fs primary with
  | .error e => .error e
  | .ok (pd, st1) =>
  let v := PyDict.lookup? pd key
  if pyTruthyOpt v then Except.ok (v.getD .null, st1)
  else
    match load_langW absBound s st1 fs dflt with
    | .error e => .error e
    | .ok (dd, st2) =>
    let dv := PyDict.lookup? dd key
    if pyTruthyOpt dv then Except.ok (dv.getD .null, st2)
    else Except.ok (.str key, st2)

/-- The program's `_load_lang`: `_abs` does not resolve. -/
def load_lang (s : SettingsR) (st : LocState) (fs : LocFS) (lang : String) :
    Except PyErr (List (String × JValue) × LocState) :=
  load_langW absResolves s st fs lang

/-- The program's `LocalizationService.get`. -/
def LocalizationService.get (s : SettingsR) (st : LocState) (fs : LocFS)
    (key : String) (lang : Option String) : Except PyErr (JValue × LocState) :=
  getW absResolves s st fs key lang

/-- The program's `sync_language_with_default`. -/
def sync_language_with_default (s : SettingsR) (st : LocState) (fs : LocFS)
    (newM : Int) (lang : String) : Except PyErr (Bool × LocState × LocFS) :=
  syncW absResolves s st fs newM lang

/-!  ### SecretCodec  -/

/-- Modelled from the spec: `SecretCodec` (§4.3) is code of this repository
that is not under `src/`.  The reserved marker token, per the spec's example
(§8), is `<encrypted>`. -/
def SECRET_MARKER : String := "<encrypted>"

/-- Whether the second list starts with the first, character by character. -/
def listStarts : List Char → List Char → Bool
  | [], _ => true
  | _ :: _, [] => false
  | p :: ps, c :: cs => p == c && listStarts ps cs

/-- Python `s.startswith(pre)`. -/
def pyStarts (s pre : String) : Bool := listStarts pre.data s.data

/-- Python `s[len(SECRET_MARKER):]`: the string with the marker stripped. -/
def stripMarker (s : String) : String := String.mk (s.data.drop SECRET_MARKER.data.length)

mutual
/-- Modelled from the spec (§4.3): recursively walk every map's values and
every sequence's elements; any string value beginning with the reserved
marker is replaced, in place, by the decrypt capability applied to the string
with the marker stripped; all other values are walked deeper or left
untouched. -/
def decodeSecrets (decrypt : String → String) : JValue → JValue
  | .str s =>
      if pyStarts s SECRET_MARKER then .str (decrypt (stripMarker s))
      else .str s
  | .arr xs => .arr (decodeSecretsList decrypt xs)
  | .obj kvs => .obj (decodeSecretsFields decrypt kvs)
  | .null => .null
  | .bool b => .bool b
  | .num n => .num n
def decodeSecretsList (decrypt : String → String) : List JValue → List JValue
  | [] => []
  | x :: xs => decodeSecrets decrypt x :: decodeSecretsList decrypt xs
def decodeSecretsFields (decrypt : String → String) :
    List (String × JValue) → List (String × JValue)
  | [] => []
  | (k, v) :: kvs => (k, decodeSecrets decrypt v) :: decodeSecretsFields decrypt kvs
end

mutual
/-- An independent rendering of the spec's §4.3 sentence, used to check
`decodeSecrets` against the claim rather than against itself: a marked string
value is replaced, in place, by the decrypt capability applied to the
remainder; other primitives stay; maps keep their keys and sequences their
positions, with every value walked. -/
inductive SecretsDecoded (decrypt : String → String) : JValue → JValue → Prop where
  | null : SecretsDecoded decrypt .null .null
  | bool (b : Bool) : SecretsDecoded decrypt (.bool b) (.bool b)
  | num (n : Int) : SecretsDecoded decrypt (.num n) (.num n)
  | marked (s : String) (h : pyStarts s SECRET_MARKER = true) :
      SecretsDecoded decrypt (.str s) (.str (decrypt (stripMarker s)))
  | plain (s : String) (h : pyStarts s SECRET_MARKER = false) :
      SecretsDecoded decrypt (.str s) (.str s)
  | arr (xs ys : List JValue) (h : SecretsDecodedList decrypt xs ys) :
      SecretsDecoded decrypt (.arr xs) (.arr ys)
  | obj (kvs kvs' : List (String × JValue)) (h : SecretsDecodedFields decrypt kvs kvs') :
      SecretsDecoded decrypt (.obj kvs) (.obj kvs')
/-- Element-wise decoding of a sequence. -/
inductive SecretsDecodedList (decrypt : String → String) :
    List JValue → List JValue → Prop where
  | nil : SecretsDecodedList decrypt [] []
  | cons {x y : JValue} {xs ys : List JValue} (h : SecretsDecoded decrypt x y)
      (t : SecretsDecodedList decrypt xs ys) :
      SecretsDecodedList decrypt (x :: xs) (y :: ys)
/-- Value-wise decoding of a map's entries: keys are untouched. -/
inductive SecretsDecodedFields (decrypt : String → String) :
    List (String × JValue) → List (String × JValue) → Prop where
  | nil : SecretsDecodedFields decrypt [] []
  | cons (k : String) {v v' : JValue} {kvs kvs' : List (String × JValue)}
      (h : SecretsDecoded decrypt v v') (t : SecretsDecodedFields decrypt kvs kvs') :
      SecretsDecodedFields decrypt ((k, v) :: kvs) ((k, v') :: kvs')
end

/-!  ### Auxiliary readings of the file system used by the theorems  -/

/-- The mtime `_file_mtime` reports for path `p` (`-1.0` when absent). -/
def mtimeOf (fs : LocFS) (p : String) : Int :=
  match fs p with
  | none => -1
  | some f => f.mtime

/-- The dictionary a (re)load of path `p` produces: `{}` for a missing file,
a parse failure, or a non-dict parse. -/
def fileDict (fs : LocFS) (p : String) : List (String × JValue) :=
  match fs p with
  | none => []
  | some f =>
      match f.parsed with
      | some (.obj kvs) => kvs
      | _ => []

/-- Whether `_load_lang` serves language `lg` (already lowered) from cache:
cached, a cached mtime exists, and it equals the file's current mtime. -/
def cacheHit (s : SettingsR) (st : LocState) (fs : LocFS) (lg : String) : Bool :=
  PyDict.contains st.cache lg &&
    (match PyDict.lookup? st.mtimes lg with
     | some m => m == mtimeOf fs (locPath s lg)
     | none => false)

/-- The dictionary `_load_lang` returns (with `_abs` bound as intended). -/
def effDict (s : SettingsR) (st : LocState) (fs : LocFS) (lang : String) :
    List (String × JValue) :=
  if cacheHit s st fs (pyLower lang) then (PyDict.lookup? st.cache (pyLower lang)).getD []
  else fileDict fs (locPath s (pyLower lang))

/-- The state `_load_lang` leaves behind (with `_abs` bound as intended). -/
def effState (s : SettingsR) (st : LocState) (fs : LocFS) (lang : String) : LocState :=
  if cacheHit s st fs (pyLower lang) then st
  else ⟨PyDict.set st.cache (pyLower lang) (fileDict fs (locPath s (pyLower lang))),
        PyDict.set st.mtimes (pyLower lang) (mtimeOf fs (locPath s (pyLower lang)))⟩

/-!  ### Concrete fixtures for witnesses and counterexamples  -/

/-- Extract the value of a succeeded computation (`d` is never used by the
theorems below; it only makes the extraction total). -/
def okOr {α : Type} (d : α) : Except PyErr α → α
  | .ok a => a
  | .error _ => d

/-- A placeholder record for `okOr`. -/
def emptySettings : SettingsR :=
  ⟨0, "", "", "", "", .null, .null, .null, [], "", "", "", [], [], [], [], [], none, [], []⟩

/-- An environment with an English system locale and no files on disk. -/
def envBare : Env := ⟨"en", fun _ => false, fun _ => none⟩

/-- An environment whose languages file exists and parses to the empty list:
`LanguageCatalog._load` then leaves `by_code` empty. -/
def envEmptyCatalog : Env :=
  ⟨"en", fun p => p == "jsons/languages.json", fun _ => some (.arr [])⟩

/-- The settings record built from the in-memory defaults under `envBare`. -/
def settingsBare : SettingsR := okOr emptySettings (construct envBare loadDefaultsTree)

/-- The record built from an empty data tree under `envEmptyCatalog`. -/
def settingsEmptyCat : SettingsR := okOr emptySettings (construct envEmptyCatalog (.obj []))

/-- `settingsBare` with the UI language switched to Czech (the setter
`set_language` does exactly this assignment). -/
def settingsCs : SettingsR := { settingsBare with ui_language := "cs" }

/-- An empty locale directory. -/
def fsNone : LocFS := fun _ => none

/-- A locale directory for the `get` example: an empty Czech dictionary and a
canonical English dictionary containing only `missing_key`. -/
def fsGetExample : LocFS := fun p =>
  if p == "locales/cs.json" then some ⟨5, some (.obj [])⟩
  else if p == "locales/en.json" then
    some ⟨7, some (.obj [("missing_key", .str "missing_key")])⟩
  else none

/-- A locale directory for the `sync` example: canonical
`{"hello":"hello","bye":"bye"}`, target `{"hello":"ahoj","old":"x"}`. -/
def fsSyncExample : LocFS := fun p =>
  if p == "locales/en.json" then
    some ⟨1, some (.obj [("hello", .str "hello"), ("bye", .str "bye")])⟩
  else if p == "locales/cs.json" then
    some ⟨1, some (.obj [("hello", .str "ahoj"), ("old", .str "x")])⟩
  else none

/-- The service state right after the example sync: both dictionaries cached
with their current mtimes. -/
def syncedState : LocState :=
  ⟨[("en", [("hello", .str "hello"), ("bye", .str "bye")]),
    ("cs", [("hello", .str "ahoj"), ("bye", .str "")])],
   [("en", 1), ("cs", 2)]⟩

/-- The locale directory right after the example sync: the Czech file was
rewritten with mtime 2. -/
def fsSynced : LocFS := fun p =>
  if p == "locales/en.json" then
    some ⟨1, some (.obj [("hello", .str "hello"), ("bye", .str "bye")])⟩
  else if p == "locales/cs.json" then
    some ⟨2, some (.obj [("hello", .str "ahoj"), ("bye", .str "")])⟩
  else none

/-- The raw extraction of the in-memory defaults tree (what `parseConfig`
yields on `loadDefaultsTree`). -/
def defaultsRaw : RawConfig :=
  { schema_version := 1
    locales_path_v := .str "locales"
    jsons_path_v := .str "jsons"
    languages_path := "jsons/languages.json"
    countries_path := "jsons/countries.json"
    write_protection := .str "strict"
    theme := .str "as400"
    themes_path := .str "src/ui/themes"
    ui0 := .str ""
    fb0 := .str "en"
    df0 := .str "en"
    backends := []
    translators := []
    middleware := []
    communication := []
    auth := []
    first_run := some true }

/-- The record `Settings.load` synthesizes from the defaults tree under an
arbitrary environment (the stuck conditionals mirror `finishConfig`
verbatim). -/
def defaultsSettings (env : Env) : SettingsR :=
  let cat := LanguageCatalog.load env "jsons/languages.json"
  { schema_version := 1
    locales_path := "locales"
    jsons_path := "jsons"
    languages_path := "jsons/languages.json"
    countries_path := "jsons/countries.json"
    write_protection := .str "strict"
    theme := .str "as400"
    themes_path := .str "src/ui/themes"
    by_code := cat
    ui_language := langPick (catalogExists cat (normStr env.detect)) (normStr env.detect)
    fallback_language := langPick (catalogExists cat "en") "en"
    default_language := langPick (catalogExists cat "en") "en"
    backends := []
    translators := []
    middleware := []
    communication := []
    auth := []
    first_run := some true
    warnings :=
      condWarn (catalogExists cat (normStr env.detect)) (warnUnknownUi (normStr env.detect)) ++
      condWarn (catalogExists cat "en") (warnUnknownFallback "en") ++
      condWarn (catalogExists cat "en") (warnUnknownDefault "en") ++
      condWarn (env.pathExists "jsons") (warnJsonsMissing "jsons") ++
      condWarn (env.pathExists "locales") (warnLocalesMissing "locales")
    errors := [] }

/-- The raw extraction `parseConfig` performs on a saved tree. -/
def saveRaw (s : SettingsR) : RawConfig :=
  { schema_version := s.schema_version
    locales_path_v := .str s.locales_path
    jsons_path_v := .str s.jsons_path
    languages_path := s.languages_path
    countries_path := s.countries_path
    write_protection := s.write_protection
    theme := s.theme
    themes_path := s.themes_path
    ui0 := .str s.ui_language
    fb0 := .str s.fallback_language
    df0 := .str s.default_language
    backends := s.backends
    translators := s.translators
    middleware := s.middleware
    communication := s.communication
    auth := s.auth
    first_run := some false }

end DictMan

namespace DictMan

/-!  ## List helpers  -/

theorem mem_of_mem_takeWhile {α : Type} {p : α → Bool} :
    ∀ {l : List α} {x : α}, x ∈ l.takeWhile p → x ∈ l := by
  intro l
  induction l with
  | nil => intro x h; simp [List.takeWhile] at h
  | cons a t ih =>
      intro x h
      cases hpa : p a with
      | false => simp [List.takeWhile, hpa] at h
      | true =>
          simp only [List.takeWhile, hpa] at h
          rcases List.mem_cons.mp h with rfl | h2
          · exact List.mem_cons_self x t
          · exact List.mem_cons_of_mem _ (ih h2)

theorem takeWhile_all {α : Type} {p : α → Bool} :
    ∀ {l : List α}, (∀ x ∈ l, p x = true) → l.takeWhile p = l := by
  intro l
  induction l with
  | nil => intro _; rfl
  | cons a t ih =>
      intro h
      have hpa : p a = true := h a (List.mem_cons_self a t)
      simp only [List.takeWhile, hpa]
      exact congrArg (a :: ·) (ih fun x hx => h x (List.mem_cons_of_mem a hx))

theorem map_id_of {α : Type} {f : α → α} :
    ∀ {l : List α}, (∀ x ∈ l, f x = x) → l.map f = l := by
  intro l
  induction l with
  | nil => intro _; rfl
  | cons a t ih =>
      intro h
      simp only [List.map_cons, h a (List.mem_cons_self a t)]
      exact congrArg (a :: ·) (ih fun x hx => h x (List.mem_cons_of_mem a hx))

/-!  ## ASCII lower-casing  -/

theorem charLower_cases (c : Char) : charLower c = c ∨ charLower c ∈ lowerLetters := by
  by_cases hA : c = 'A'
  · subst hA; right; decide
  by_cases hB : c = 'B'
  · subst hB; right; decide
  by_cases hC : c = 'C'
  · subst hC; right; decide
  by_cases hD : c = 'D'
  · subst hD; right; decide
  by_cases hE : c = 'E'
  · subst hE; right; decide
  by_cases hF : c = 'F'
  · subst hF; right; decide
  by_cases hG : c = 'G'
  · subst hG; right; decide
  by_cases hH : c = 'H'
  · subst hH; right; decide
  by_cases hI : c = 'I'
  · subst hI; right; decide
  by_cases hJ : c = 'J'
  · subst hJ; right; decide
  by_cases hK : c = 'K'
  · subst hK; right; decide
  by_cases hL : c = 'L'
  · subst hL; right; decide
  by_cases hM : c = 'M'
  · subst hM; right; decide
  by_cases hN : c = 'N'
  · subst hN; right; decide
  by_cases hO : c = 'O'
  · subst hO; right; decide
  by_cases hP : c = 'P'
  · subst hP; right; decide
  by_cases hQ : c = 'Q'
  · subst hQ; right; decide
  by_cases hR : c = 'R'
  · subst hR; right; decide
  by_cases hS : c = 'S'
  · subst hS; right; decide
  by_cases hT : c = 'T'
  · subst hT; right; decide
  by_cases hU : c = 'U'
  · subst hU; right; decide
  by_cases hV : c = 'V'
  · subst hV; right; decide
  by_cases hW : c = 'W'
  · subst hW; right; decide
  by_cases hX : c = 'X'
  · subst hX; right; decide
  by_cases hY : c = 'Y'
  · subst hY; right; decide
  by_cases hZ : c = 'Z'
  · subst hZ; right; decide
  left
  unfold charLower
  rw [if_neg hA, if_neg hB, if_neg hC, if_neg hD, if_neg hE, if_neg hF, if_neg hG, if_neg hH,
    if_neg hI, if_neg hJ, if_neg hK, if_neg hL, if_neg hM, if_neg hN, if_neg hO, if_neg hP,
    if_neg hQ, if_neg hR, if_neg hS, if_neg hT, if_neg hU, if_neg hV, if_neg hW, if_neg hX,
    if_neg hY, if_neg hZ]

theorem charLower_idem (c : Char) : charLower (charLower c) = charLower c := by
  rcases charLower_cases c with h | h
  · rw [h]; exact h
  · simp only [lowerLetters, List.mem_cons, List.not_mem_nil, or_false] at h
    rcases h with h|h|h|h|h|h|h|h|h|h|h|h|h|h|h|h|h|h|h|h|h|h|h|h|h|h <;> rw [h] <;> decide

theorem charLower_ne {c d : Char} (hd : d ∉ lowerLetters) (hc : c ≠ d) : charLower c ≠ d := by
  rcases charLower_cases c with h | h
  · rw [h]; exact hc
  · intro he; rw [he] at h; exact hd h

theorem mapLower_idem : ∀ l : List Char, (l.map charLower).map charLower = l.map charLower := by
  intro l
  induction l with
  | nil => rfl
  | cons a t ih => simp [charLower_idem, ih]

theorem pyLower_idem (s : String) : pyLower (pyLower s) = pyLower s :=
  congrArg String.mk (mapLower_idem s.data)

/-!  ## `_normalize_lang`  -/

theorem dashU_ne_dash (c : Char) : dashU c ≠ '-' := by
  unfold dashU
  split_ifs with h
  · decide
  · exact h

theorem normList_ne_nil (l : List Char) : normList l ≠ [] := by
  unfold normList
  split_ifs with h1 h2
  · decide
  · decide
  · intro he
    rw [List.map_eq_nil_iff] at he
    exact h2 he

theorem normList_fix (l : List Char) : normList (normList l) = normList l := by
  by_cases h1 : l = []
  · subst h1; decide
  by_cases h2 : (l.map dashU).takeWhile (fun c => c != '_') = []
  · have hl : normList l = "en".data := by rw [normList, if_neg h1, if_pos h2]
    rw [hl]; decide
  have hval : normList l = ((l.map dashU).takeWhile (fun c => c != '_')).map charLower := by
    rw [normList, if_neg h1, if_neg h2]
  have helem : ∀ x ∈ (l.map dashU).takeWhile (fun c => c != '_'), x ≠ '-' ∧ x ≠ '_' := by
    intro x hx
    constructor
    · rcases List.mem_map.mp (mem_of_mem_takeWhile hx) with ⟨y, _, rfl⟩
      exact dashU_ne_dash y
    · have hp := List.mem_takeWhile_imp hx
      simpa using hp
  have helem2 : ∀ x ∈ normList l, x ≠ '-' ∧ x ≠ '_' := by
    rw [hval]
    intro x hx
    rcases List.mem_map.mp hx with ⟨y, hy, rfl⟩
    rcases helem y hy with ⟨hy1, hy2⟩
    exact ⟨charLower_ne (by decide) hy1, charLower_ne (by decide) hy2⟩
  have hmapd : (normList l).map dashU = normList l :=
    map_id_of fun x hx => by
      unfold dashU; rw [if_neg (helem2 x hx).1]
  have htake : (normList l).takeWhile (fun c => c != '_') = normList l :=
    takeWhile_all fun x hx => by simpa using (helem2 x hx).2
  conv_lhs => rw [normList]
  rw [if_neg (normList_ne_nil l), hmapd, htake, if_neg (normList_ne_nil l), hval,
    mapLower_idem]

theorem normStr_ne_empty (s : String) : normStr s ≠ "" := by
  intro he
  have h := congrArg String.data he
  simp only [normStr] at h
  exact normList_ne_nil s.data h

theorem normStr_fix (s : String) : normStr (normStr s) = normStr s :=
  congrArg String.mk (normList_fix s.data)

theorem normalizeLangJ_str (s : String) : normalizeLangJ (.str s) = .ok (normStr s) := by
  unfold normalizeLangJ
  by_cases h : s = ""
  · subst h; rfl
  · have ht : pyTruthy (.str s) = true := by simp [pyTruthy, h]
    rw [ht]
    simp

theorem normalizeLangJ_ok {v : JValue} {c : String} (h : normalizeLangJ v = .ok c) :
    c ≠ "" ∧ normStr c = c := by
  unfold normalizeLangJ at h
  split at h
  · cases h
    refine ⟨by decide, ?_⟩
    decide
  · split at h
    · cases h
      exact ⟨normStr_ne_empty _, normStr_fix _⟩
    · cases h

/-!  ## `Settings` construction: the language invariant  -/

theorem langPick_pos {c : Bool} {code : String} (h : c = true) : langPick c code = code := by
  simp [langPick, h]

theorem langPick_neg {c : Bool} {code : String} (h : c = false) : langPick c code = "en" := by
  simp [langPick, h]

theorem condWarn_pos {c : Bool} {w : String} (h : c = true) : condWarn c w = [] := by
  simp [condWarn, h]

theorem condWarn_neg {c : Bool} {w : String} (h : c = false) : condWarn c w = [w] := by
  simp [condWarn, h]

/-- What `_post_init_language_normalization` guarantees about a successfully
constructed record: each of the three codes is non-empty and a fixpoint of
normalization, is either in the catalog or the substituted `"en"`, and a code
that ends up outside the catalog was substituted and warned about.  The
catalog itself is the one loaded from the record's `languages_path`. -/
theorem construct_languages_ok {env : Env} {data : JValue} {s : SettingsR}
    (h : construct env data = .ok s) :
    s.by_code = LanguageCatalog.load env s.languages_path ∧
    (s.ui_language ≠ "" ∧ normStr s.ui_language = s.ui_language ∧
      (catalogExists s.by_code s.ui_language = true ∨ s.ui_language = "en") ∧
      (catalogExists s.by_code s.ui_language = false →
        s.ui_language = "en" ∧ ∃ c, warnUnknownUi c ∈ s.warnings)) ∧
    (s.fallback_language ≠ "" ∧ normStr s.fallback_language = s.fallback_language ∧
      (catalogExists s.by_code s.fallback_language = true ∨ s.fallback_language = "en") ∧
      (catalogExists s.by_code s.fallback_language = false →
        s.fallback_language = "en" ∧ ∃ c, warnUnknownFallback c ∈ s.warnings)) ∧
    (s.default_language ≠ "" ∧ normStr s.default_language = s.default_language ∧
      (catalogExists s.by_code s.default_language = true ∨ s.default_language = "en") ∧
      (catalogExists s.by_code s.default_language = false →
        s.default_language = "en" ∧ ∃ c, warnUnknownDefault c ∈ s.warnings)) := by
  unfold construct at h
  split at h
  · cases h
  rename_i r hr
  unfold finishConfig at h
  split at h
  · cases h
  rename_i fb1 hfb
  split at h
  · cases h
  rename_i df1 hdf
  split at h
  · cases h
  rename_i ui1 hui
  split at h
  · cases h
  rename_i jsons hjsons
  split at h
  · cases h
  rename_i locales hlocales
  cases h
  obtain ⟨hfb1, hfb2⟩ := normalizeLangJ_ok hfb
  obtain ⟨hdf1, hdf2⟩ := normalizeLangJ_ok hdf
  obtain ⟨hui1, hui2⟩ := normalizeLangJ_ok hui
  dsimp only
  refine ⟨rfl, ?_, ?_, ?_⟩
  · cases hc : catalogExists (LanguageCatalog.load env r.languages_path) ui1 with
    | true =>
        rw [langPick_pos rfl]
        exact ⟨hui1, hui2, Or.inl hc, fun hf => by rw [hc] at hf; cases hf⟩
    | false =>
        rw [langPick_neg rfl, condWarn_neg rfl]
        exact ⟨by decide, by decide, Or.inr rfl, fun _ => ⟨rfl, ⟨ui1, by simp⟩⟩⟩
  · cases hc : catalogExists (LanguageCatalog.load env r.languages_path) fb1 with
    | true =>
        rw [langPick_pos rfl]
        exact ⟨hfb1, hfb2, Or.inl hc, fun hf => by rw [hc] at hf; cases hf⟩
    | false =>
        rw [langPick_neg rfl, condWarn_neg rfl]
        exact ⟨by decide, by decide, Or.inr rfl, fun _ => ⟨rfl, ⟨fb1, by simp⟩⟩⟩
  · cases hc : catalogExists (LanguageCatalog.load env r.languages_path) df1 with
    | true =>
        rw [langPick_pos rfl]
        exact ⟨hdf1, hdf2, Or.inl hc, fun hf => by rw [hc] at hf; cases hf⟩
    | false =>
        rw [langPick_neg rfl, condWarn_neg rfl]
        exact ⟨by decide, by decide, Or.inr rfl, fun _ => ⟨rfl, ⟨df1, by simp⟩⟩⟩

/-- C2 (counterexample): the claim fails as stated.  With a languages file
that exists and parses to the empty JSON list, `LanguageCatalog._load` leaves
`by_code` empty; construction of the empty data tree then completes with all
three codes repaired to `"en"`, yet `"en"` is NOT present in the loaded
catalog. -/
theorem c2_catalog_counterexample :
    construct envEmptyCatalog (.obj []) = .ok settingsEmptyCat ∧
    settingsEmptyCat.ui_language = "en" ∧
    settingsEmptyCat.fallback_language = "en" ∧
    settingsEmptyCat.default_language = "en" ∧
    catalogExists settingsEmptyCat.by_code settingsEmptyCat.ui_language = false ∧
    catalogExists settingsEmptyCat.by_code settingsEmptyCat.fallback_language = false ∧
    catalogExists settingsEmptyCat.by_code settingsEmptyCat.default_language = false :=
  ⟨rfl, rfl, rfl, rfl, rfl, rfl, rfl⟩

/-- C2 (amended): after a successful construction, `ui_language`,
`fallback_language` and `default_language` are each non-empty; any code that
is absent from the catalog was repaired by substituting `"en"` with a warning
appended; and all three are present in the catalog PROVIDED `"en"` is in the
catalog (which holds whenever the languages file is missing, unparseable, or
lists `"en"`, but not, e.g., when it parses to a list without `"en"`). -/
theorem c2_languages_normalized {env : Env} {data : JValue} {s : SettingsR}
    (h : construct env data = .ok s) :
    s.ui_language ≠ "" ∧ s.fallback_language ≠ "" ∧ s.default_language ≠ "" ∧
    (catalogExists s.by_code "en" = true →
      catalogExists s.by_code s.ui_language = true ∧
      catalogExists s.by_code s.fallback_language = true ∧
      catalogExists s.by_code s.default_language = true) ∧
    (catalogExists s.by_code s.ui_language = false →
      s.ui_language = "en" ∧ ∃ c, warnUnknownUi c ∈ s.warnings) ∧
    (catalogExists s.by_code s.fallback_language = false →
      s.fallback_language = "en" ∧ ∃ c, warnUnknownFallback c ∈ s.warnings) ∧
    (catalogExists s.by_code s.default_language = false →
      s.default_language = "en" ∧ ∃ c, warnUnknownDefault c ∈ s.warnings) := by
  obtain ⟨-, ⟨hu1, _, hu3, hu4⟩, ⟨hf1, _, hf3, hf4⟩, ⟨hd1, _, hd3, hd4⟩⟩ :=
    construct_languages_ok h
  refine ⟨hu1, hf1, hd1, ?_, hu4, hf4, hd4⟩
  intro hen
  refine ⟨?_, ?_, ?_⟩
  · rcases hu3 with hv | he
    · exact hv
    · rw [he]; exact hen
  · rcases hf3 with hv | he
    · exact hv
    · rw [he]; exact hen
  · rcases hd3 with hv | he
    · exact hv
    · rw [he]; exact hen

/-- Witness for `c2_languages_normalized` at a concrete construction. -/
theorem c2_languages_normalized_witness :
    construct envBare loadDefaultsTree = .ok settingsBare ∧
    (settingsBare.ui_language ≠ "" ∧ settingsBare.fallback_language ≠ "" ∧
      settingsBare.default_language ≠ "" ∧
      (catalogExists settingsBare.by_code "en" = true →
        catalogExists settingsBare.by_code settingsBare.ui_language = true ∧
        catalogExists settingsBare.by_code settingsBare.fallback_language = true ∧
        catalogExists settingsBare.by_code settingsBare.default_language = true) ∧
      (catalogExists settingsBare.by_code settingsBare.ui_language = false →
        settingsBare.ui_language = "en" ∧ ∃ c, warnUnknownUi c ∈ settingsBare.warnings) ∧
      (catalogExists settingsBare.by_code settingsBare.fallback_language = false →
        settingsBare.fallback_language = "en" ∧
          ∃ c, warnUnknownFallback c ∈ settingsBare.warnings) ∧
      (catalogExists settingsBare.by_code settingsBare.default_language = false →
        settingsBare.default_language = "en" ∧
          ∃ c, warnUnknownDefault c ∈ settingsBare.warnings)) :=
  ⟨rfl, @c2_languages_normalized envBare loadDefaultsTree settingsBare rfl⟩

/-!  ## `Settings.load`  -/

theorem parseDefaults : parseConfig loadDefaultsTree = .ok defaultsRaw := rfl

/-- Constructing the in-memory defaults tree always succeeds and yields
`defaultsSettings env`. -/
theorem constructDefaults_eq (env : Env) :
    construct env loadDefaultsTree = .ok (defaultsSettings env) := by
  have h3 : normalizeLangJ
      (if pyTruthy defaultsRaw.ui0 then defaultsRaw.ui0 else .str env.detect) =
      .ok (normStr env.detect) := by
    show normalizeLangJ (.str env.detect) = _
    exact normalizeLangJ_str _
  show finishConfig env defaultsRaw = _
  unfold finishConfig
  rw [h3]
  rfl

/-- C5: `load(path)` returns the existing singleton unchanged when one
exists; otherwise a missing file, an empty file and a parse failure each
synthesize the in-memory default configuration with the first-run marker set
to `True`, the parse-failure and empty-file cases additionally appending the
warning that names the exception; and in none of these cases does `load`
perform any file write. -/
theorem c5_load_contract :
    (∀ (inst : SettingsR) (env : Env) (path : String) (file : FileContent),
        Settings.load (some inst) env path file = .ok (inst, [])) ∧
    (∀ (env : Env) (path : String),
        Settings.load none env path .missing = .ok (defaultsSettings env, []) ∧
        (defaultsSettings env).first_run = some true ∧
        is_first_run (defaultsSettings env) = true) ∧
    (∀ (env : Env) (path : String),
        Settings.load none env path .blank =
          .ok ({ defaultsSettings env with
                  warnings := (defaultsSettings env).warnings ++
                    [parseFailMsg path "Empty settings file"] }, []) ∧
        ({ defaultsSettings env with
            warnings := (defaultsSettings env).warnings ++
              [parseFailMsg path "Empty settings file"] } : SettingsR).first_run = some true) ∧
    (∀ (env : Env) (path : String) (ex : String),
        Settings.load none env path (.text (.error ex)) =
          .ok ({ defaultsSettings env with
                  warnings := (defaultsSettings env).warnings ++ [parseFailMsg path ex] }, []) ∧
        ({ defaultsSettings env with
            warnings := (defaultsSettings env).warnings ++
              [parseFailMsg path ex] } : SettingsR).first_run = some true) := by
  refine ⟨fun inst env path file => rfl, fun env path => ?_, fun env path => ?_,
    fun env path ex => ?_⟩
  · refine ⟨?_, rfl, rfl⟩
    unfold Settings.load
    rw [constructDefaults_eq]
  · refine ⟨?_, rfl⟩
    unfold Settings.load
    rw [constructDefaults_eq]
  · refine ⟨?_, rfl⟩
    unfold Settings.load
    rw [constructDefaults_eq]

/-!  ## `Settings.save` / `Settings.load` round trip  -/

/-- C4: for every constructed record, saving it and loading the written file
on a fresh singleton (no `_instance`, same environment) succeeds, performs no
further writes, and reproduces `ui_language`, `fallback_language`,
`default_language`, `theme` and the four plugin-category sub-maps. -/
theorem c4_save_load_roundtrip {env : Env} {data : JValue} {path : String} {s : SettingsR}
    (h : construct env data = .ok s) :
    ∃ s', Settings.load none env path (.text (.ok (saveTree s))) = .ok (s', []) ∧
      s'.ui_language = s.ui_language ∧ s'.fallback_language = s.fallback_language ∧
      s'.default_language = s.default_language ∧ s'.theme = s.theme ∧
      s'.backends = s.backends ∧ s'.translators = s.translators ∧
      s'.middleware = s.middleware ∧ s'.communication = s.communication := by
  obtain ⟨hcat, ⟨hu1, hu2, hu3, -⟩, ⟨hf1, hf2, hf3, -⟩, ⟨hd1, hd2, hd3, -⟩⟩ :=
    construct_languages_ok h
  have htru : pyTruthy (JValue.str s.ui_language) = true := by
    simpa [pyTruthy] using hu1
  have hui : normalizeLangJ
      (if pyTruthy (saveRaw s).ui0 then (saveRaw s).ui0 else .str env.detect) =
      .ok s.ui_language := by
    have harg : (if pyTruthy (saveRaw s).ui0 then (saveRaw s).ui0 else JValue.str env.detect) =
        (saveRaw s).ui0 := if_pos htru
    rw [harg]
    show normalizeLangJ (.str s.ui_language) = _
    rw [normalizeLangJ_str, hu2]
  have hfb : normalizeLangJ (saveRaw s).fb0 = .ok s.fallback_language := by
    show normalizeLangJ (.str s.fallback_language) = _
    rw [normalizeLangJ_str, hf2]
  have hdf : normalizeLangJ (saveRaw s).df0 = .ok s.default_language := by
    show normalizeLangJ (.str s.default_language) = _
    rw [normalizeLangJ_str, hd2]
  have hcon : construct env (saveTree s) = .ok
      ⟨s.schema_version, s.locales_path, s.jsons_path, s.languages_path, s.countries_path,
       s.write_protection, s.theme, s.themes_path,
       LanguageCatalog.load env s.languages_path,
       langPick (catalogExists (LanguageCatalog.load env s.languages_path) s.ui_language)
         s.ui_language,
       langPick (catalogExists (LanguageCatalog.load env s.languages_path) s.fallback_language)
         s.fallback_language,
       langPick (catalogExists (LanguageCatalog.load env s.languages_path) s.default_language)
         s.default_language,
       s.backends, s.translators, s.middleware, s.communication, s.auth,
       some false,
       condWarn (catalogExists (LanguageCatalog.load env s.languages_path) s.ui_language)
           (warnUnknownUi s.ui_language) ++
         condWarn (catalogExists (LanguageCatalog.load env s.languages_path) s.fallback_language)
           (warnUnknownFallback s.fallback_language) ++
         condWarn (catalogExists (LanguageCatalog.load env s.languages_path) s.default_language)
           (warnUnknownDefault s.default_language) ++
         condWarn (env.pathExists s.jsons_path) (warnJsonsMissing s.jsons_path) ++
         condWarn (env.pathExists s.locales_path) (warnLocalesMissing s.locales_path),
       []⟩ := by
    show finishConfig env (saveRaw s) = _
    unfold finishConfig
    rw [hfb, hdf, hui]
    rfl
  refine ⟨⟨s.schema_version, s.locales_path, s.jsons_path, s.languages_path, s.countries_path,
       s.write_protection, s.theme, s.themes_path,
       LanguageCatalog.load env s.languages_path,
       langPick (catalogExists (LanguageCatalog.load env s.languages_path) s.ui_language)
         s.ui_language,
       langPick (catalogExists (LanguageCatalog.load env s.languages_path) s.fallback_language)
         s.fallback_language,
       langPick (catalogExists (LanguageCatalog.load env s.languages_path) s.default_language)
         s.default_language,
       s.backends, s.translators, s.middleware, s.communication, s.auth,
       some false,
       condWarn (catalogExists (LanguageCatalog.load env s.languages_path) s.ui_language)
           (warnUnknownUi s.ui_language) ++
         condWarn (catalogExists (LanguageCatalog.load env s.languages_path) s.fallback_language)
           (warnUnknownFallback s.fallback_language) ++
         condWarn (catalogExists (LanguageCatalog.load env s.languages_path) s.default_language)
           (warnUnknownDefault s.default_language) ++
         condWarn (env.pathExists s.jsons_path) (warnJsonsMissing s.jsons_path) ++
         condWarn (env.pathExists s.locales_path) (warnLocalesMissing s.locales_path),
       []⟩, ?_, ?_, ?_, ?_, rfl, rfl, rfl, rfl, rfl⟩
  · show (match construct env (saveTree s) with
      | .error e => Except.error e
      | .ok s' => Except.ok (s', ([] : List FileWrite))) = _
    rw [hcon]
  · show langPick (catalogExists (LanguageCatalog.load env s.languages_path) s.ui_language)
        s.ui_language = s.ui_language
    rw [← hcat]
    rcases hu3 with hv | he
    · exact langPick_pos hv
    · rw [he]; unfold langPick; split_ifs <;> rfl
  · show langPick (catalogExists (LanguageCatalog.load env s.languages_path) s.fallback_language)
        s.fallback_language = s.fallback_language
    rw [← hcat]
    rcases hf3 with hv | he
    · exact langPick_pos hv
    · rw [he]; unfold langPick; split_ifs <;> rfl
  · show langPick (catalogExists (LanguageCatalog.load env s.languages_path) s.default_language)
        s.default_language = s.default_language
    rw [← hcat]
    rcases hd3 with hv | he
    · exact langPick_pos hv
    · rw [he]; unfold langPick; split_ifs <;> rfl

/-- Witness for `c4_save_load_roundtrip` at a concrete construction. -/
theorem c4_save_load_roundtrip_witness :
    construct envBare loadDefaultsTree = .ok settingsBare ∧
    (∃ s', Settings.load none envBare "settings.json"
        (.text (.ok (saveTree settingsBare))) = .ok (s', []) ∧
      s'.ui_language = settingsBare.ui_language ∧
      s'.fallback_language = settingsBare.fallback_language ∧
      s'.default_language = settingsBare.default_language ∧
      s'.theme = settingsBare.theme ∧
      s'.backends = settingsBare.backends ∧
      s'.translators = settingsBare.translators ∧
      s'.middleware = settingsBare.middleware ∧
      s'.communication = settingsBare.communication) :=
  ⟨rfl, @c4_save_load_roundtrip envBare loadDefaultsTree "settings.json" settingsBare rfl⟩

/-!  ## Theme resolution  -/

/-- C9: `resolve_theme_files(name)` returns the fixed base stylesheet
followed by the custom variant of `name` if it exists, else the system
variant, else the custom then system variant of the hard-coded `"as400"`;
and exactly `[base]` when none of the four files exist. -/
theorem c9_resolve_theme_order {tp : String} {s : SettingsR}
    (jp : String → String → String) (fs : String → Bool) (n : String)
    (hthemes : s.themes_path = .str tp) (hn : n ≠ "") :
    resolve_theme_files jp fs s (some n) =
      .ok (baseCss ::
        (if fs (jp tp (pyLower n ++ ".custom.tcss")) then [jp tp (pyLower n ++ ".custom.tcss")]
         else if fs (jp tp (pyLower n ++ ".tcss")) then [jp tp (pyLower n ++ ".tcss")]
         else if fs (jp tp "as400.custom.tcss") then [jp tp "as400.custom.tcss"]
         else if fs (jp tp "as400.tcss") then [jp tp "as400.tcss"]
         else [])) ∧
    (fs (jp tp (pyLower n ++ ".custom.tcss")) = false →
      fs (jp tp (pyLower n ++ ".tcss")) = false →
      fs (jp tp "as400.custom.tcss") = false →
      fs (jp tp "as400.tcss") = false →
      resolve_theme_files jp fs s (some n) = .ok [baseCss]) := by
  have hnv : (if n != "" then JValue.str n
      else if pyTruthy s.theme then s.theme else .str "as400") = .str n := by
    simp [hn]
  constructor
  · unfold resolve_theme_files
    dsimp only
    rw [hnv, hthemes]
    dsimp only [pathOf]
    split_ifs <;> rfl
  · intro h1 h2 h3 h4
    unfold resolve_theme_files
    dsimp only
    rw [hnv, hthemes]
    dsimp only [pathOf]
    simp [h1, h2, h3, h4]

/-- Witness for `c9_resolve_theme_order` with no theme files on disk. -/
theorem c9_resolve_theme_order_witness :
    settingsBare.themes_path = .str "src/ui/themes" ∧ ("nope" : String) ≠ "" ∧
    (resolve_theme_files (fun a b => a ++ "/" ++ b) (fun _ => false) settingsBare (some "nope") =
      .ok (baseCss ::
        (if (fun _ => false : String → Bool)
              ((fun a b => a ++ "/" ++ b) "src/ui/themes" (pyLower "nope" ++ ".custom.tcss")) then
           [(fun a b => a ++ "/" ++ b) "src/ui/themes" (pyLower "nope" ++ ".custom.tcss")]
         else if (fun _ => false : String → Bool)
              ((fun a b => a ++ "/" ++ b) "src/ui/themes" (pyLower "nope" ++ ".tcss")) then
           [(fun a b => a ++ "/" ++ b) "src/ui/themes" (pyLower "nope" ++ ".tcss")]
         else if (fun _ => false : String → Bool)
              ((fun a b => a ++ "/" ++ b) "src/ui/themes" "as400.custom.tcss") then
           [(fun a b => a ++ "/" ++ b) "src/ui/themes" "as400.custom.tcss"]
         else if (fun _ => false : String → Bool)
              ((fun a b => a ++ "/" ++ b) "src/ui/themes" "as400.tcss") then
           [(fun a b => a ++ "/" ++ b) "src/ui/themes" "as400.tcss"]
         else [])) ∧
      ((fun _ => false : String → Bool)
          ((fun a b => a ++ "/" ++ b) "src/ui/themes" (pyLower "nope" ++ ".custom.tcss")) = false →
        (fun _ => false : String → Bool)
          ((fun a b => a ++ "/" ++ b) "src/ui/themes" (pyLower "nope" ++ ".tcss")) = false →
        (fun _ => false : String → Bool)
          ((fun a b => a ++ "/" ++ b) "src/ui/themes" "as400.custom.tcss") = false →
        (fun _ => false : String → Bool)
          ((fun a b => a ++ "/" ++ b) "src/ui/themes" "as400.tcss") = false →
        resolve_theme_files (fun a b => a ++ "/" ++ b) (fun _ => false) settingsBare
          (some "nope") = .ok [baseCss])) :=
  ⟨rfl, by decide,
    @c9_resolve_theme_order "src/ui/themes" settingsBare (fun a b => a ++ "/" ++ b)
      (fun _ => false) "nope" rfl (by decide)⟩

/-!  ## Plugin option accessors  -/

theorem PyDict.lookup_set_self {α : Type} (l : List (String × α)) (k : String) (v : α) :
    PyDict.lookup? (PyDict.set l k v) k = some v := by
  induction l with
  | nil => simp [PyDict.set, PyDict.lookup?]
  | cons p rest ih =>
      obtain ⟨k', v'⟩ := p
      by_cases hk : k' = k
      · simp [PyDict.set, PyDict.lookup?, hk]
      · simp [PyDict.set, PyDict.lookup?, hk, ih]

/-- C10: for a known category and a name that is absent from the section (or
whose options value is not a dict), `get_plugin_options` — and hence the
read-style `plugin_enabled` — inserts `name ↦ {}` into the record's section;
`plugin_enabled` reports `false` for it, and the inserted empty options dict
is part of what `save()` serializes. -/
theorem c10_plugin_options_frame {s : SettingsR} {cat name : String}
    {sec : List (String × JValue)}
    (hcat : sectionOf s cat = some sec)
    (hmiss : (∃ kvs, PyDict.lookup? sec name = some (.obj kvs)) → False) :
    get_plugin_options s cat name =
      .ok (.obj [], setSection s cat (PyDict.set sec name (.obj []))) ∧
    plugin_enabled s cat name =
      .ok (false, setSection s cat (PyDict.set sec name (.obj []))) ∧
    PyDict.getD (JValue.fields
        (saveTree (setSection s cat (PyDict.set sec name (.obj []))))) cat .null =
      .obj (PyDict.set sec name (.obj [])) ∧
    PyDict.lookup? (PyDict.set sec name (.obj [])) name = some (.obj []) := by
  have hgpo : get_plugin_options s cat name =
      .ok (.obj [], setSection s cat (PyDict.set sec name (.obj []))) := by
    unfold get_plugin_options
    rw [hcat]
    dsimp only
    cases hl : PyDict.lookup? sec name with
    | none => rfl
    | some v =>
        cases v with
        | obj kvs => exact absurd ⟨kvs, hl⟩ hmiss
        | null => rfl
        | bool b => rfl
        | num n => rfl
        | str t => rfl
        | arr xs => rfl
  have hcats : cat = "backends" ∨ cat = "translators" ∨ cat = "middleware" ∨
      cat = "communication" := by
    unfold sectionOf at hcat
    split_ifs at hcat with h1 h2 h3 h4
    · exact Or.inl h1
    · exact Or.inr (Or.inl h2)
    · exact Or.inr (Or.inr (Or.inl h3))
    · exact Or.inr (Or.inr (Or.inr h4))
  refine ⟨hgpo, ?_, ?_, PyDict.lookup_set_self sec name (.obj [])⟩
  · unfold plugin_enabled
    rw [hgpo]
    rfl
  · rcases hcats with h | h | h | h <;> subst h <;> rfl

/-- Witness for `c10_plugin_options_frame` on a fresh record and the
`backends` category. -/
theorem c10_plugin_options_frame_witness :
    sectionOf settingsBare "backends" = some [] ∧
    ((∃ kvs, PyDict.lookup? ([] : List (String × JValue)) "plug" = some (.obj kvs)) → False) ∧
    (get_plugin_options settingsBare "backends" "plug" =
      .ok (.obj [], setSection settingsBare "backends" (PyDict.set [] "plug" (.obj []))) ∧
    plugin_enabled settingsBare "backends" "plug" =
      .ok (false, setSection settingsBare "backends" (PyDict.set [] "plug" (.obj []))) ∧
    PyDict.getD (JValue.fields
        (saveTree (setSection settingsBare "backends" (PyDict.set [] "plug" (.obj [])))))
        "backends" .null =
      .obj (PyDict.set [] "plug" (.obj [])) ∧
    PyDict.lookup? (PyDict.set ([] : List (String × JValue)) "plug" (.obj [])) "plug" =
      some (.obj [])) :=
  by
  refine ⟨rfl, ?_, ?_⟩
  · rintro ⟨kvs, hk⟩
    cases hk
  · exact @c10_plugin_options_frame settingsBare "backends" "plug" [] rfl
      (fun hx => by rcases hx with ⟨kvs, hk⟩; cases hk)

/-!  ## LocalizationService: the `_abs` attribute error

`_lang_file` looks up `settings._abs`, which `Settings.__init__` only ever
defined as a local function (settings.py line 182), so every code path of the
service that touches a locale file raises `AttributeError` before reading or
writing anything.  -/

/-- C1 (code_bug): as written, `_load_lang` never returns a dictionary — for
every language, cache state and file system it raises `AttributeError`,
because `_lang_file`'s `self.settings._abs` lookup fails (`_abs` is a local
function of `Settings.__init__`, bound to neither the instance nor the
class). -/
theorem c1_load_lang_attribute_error (s : SettingsR) (st : LocState) (fs : LocFS)
    (lang : String) : load_lang s st fs lang = .error .attributeError := rfl

/-- C6 (code_bug): as written, `LocalizationService.get` raises
`AttributeError` for every key and language instead of resolving through the
fallback chain — its first step, `_load_lang`, fails on the `_abs` lookup. -/
theorem c6_get_attribute_error (s : SettingsR) (st : LocState) (fs : LocFS)
    (key : String) (lang : Option String) :
    LocalizationService.get s st fs key lang = .error .attributeError := rfl

/-- C7 (code_bug): as written, `sync_language_with_default` raises
`AttributeError` for every language before reading either dictionary. -/
theorem c7_sync_attribute_error (s : SettingsR) (st : LocState) (fs : LocFS)
    (newM : Int) (lang : String) :
    sync_language_with_default s st fs newM lang = .error .attributeError := rfl

/-- C8 (code_bug): on the spec's own example `sync_language_with_default("xx")`,
the first of the two claimed back-to-back calls already raises
`AttributeError`, so no second call can report "no change". -/
theorem c8_sync_twice_attribute_error :
    sync_language_with_default settingsBare LocState.empty fsNone 0 "xx" =
      .error .attributeError ∧
    sync_language_with_default settingsBare LocState.empty fsNone 1 "xx" =
      .error .attributeError :=
  ⟨rfl, rfl⟩

/-!  ## LocalizationService with `_abs` bound as evidently intended

The local `_abs` takes `self` and is called as a method here and in
`settings_screen.py`; the theorems below settle the algorithmic content of
the claims against `absBound = true`, the reading in which the method is
bound. -/

theorem file_mtimeW_true (s : SettingsR) (fs : LocFS) (lang : String) :
    file_mtimeW true s fs lang = .ok (mtimeOf fs (locPath s lang)) := by
  unfold file_mtimeW lang_fileW mtimeOf
  dsimp only
  cases hfs : fs (locPath s lang) <;> rfl

/-- `_load_lang` with `_abs` bound returns exactly the cache-or-file
dictionary and updates the cache exactly on a miss. -/
theorem load_langW_true (s : SettingsR) (st : LocState) (fs : LocFS) (lang : String) :
    load_langW true s st fs lang = .ok (effDict s st fs lang, effState s st fs lang) := by
  unfold load_langW effDict effState cacheHit
  dsimp only
  rw [file_mtimeW_true]
  dsimp only [lang_fileW]
  split_ifs <;> rfl

/-- The intended `_load_lang` against the claimed cache discipline: a cached
language whose cached mtime equals the on-disk one is served from cache with
the state unchanged; otherwise the file is re-read and cache and mtime
refreshed; a missing or unparseable file yields the empty dictionary.  (The
`cacheHit` condition is literally "cached and cached mtime equals current
mtime", so re-reads happen exactly when it fails.) -/
theorem load_lang_intended_spec (s : SettingsR) (st : LocState) (fs : LocFS)
    (lang : String) :
    (cacheHit s st fs (pyLower lang) = true →
      load_langW true s st fs lang =
        .ok ((PyDict.lookup? st.cache (pyLower lang)).getD [], st)) ∧
    (cacheHit s st fs (pyLower lang) = false →
      load_langW true s st fs lang =
        .ok (fileDict fs (locPath s (pyLower lang)),
          ⟨PyDict.set st.cache (pyLower lang) (fileDict fs (locPath s (pyLower lang))),
           PyDict.set st.mtimes (pyLower lang) (mtimeOf fs (locPath s (pyLower lang)))⟩)) ∧
    (fs (locPath s (pyLower lang)) = none → fileDict fs (locPath s (pyLower lang)) = []) ∧
    (∀ m, fs (locPath s (pyLower lang)) = some ⟨m, none⟩ →
      fileDict fs (locPath s (pyLower lang)) = []) := by
  refine ⟨?_, ?_, ?_, ?_⟩
  · intro hh
    rw [load_langW_true]
    unfold effDict effState
    rw [if_pos hh, if_pos hh]
  · intro hh
    rw [load_langW_true]
    unfold effDict effState
    rw [if_neg (by simp [hh]), if_neg (by simp [hh])]
  · intro hn
    unfold fileDict
    rw [hn]
  · intro m hm
    unfold fileDict
    rw [hm]

/-- The intended `get` resolves in the claimed order: the requested (or UI)
language's truthy value, else the default language's truthy value, else the
key itself — with the dictionaries being exactly what `_load_lang` serves. -/
theorem get_intended_order (s : SettingsR) (st : LocState) (fs : LocFS) (key : String)
    (lang : Option String) :
    getW true s st fs key lang =
      .ok
        (if pyTruthyOpt (PyDict.lookup?
              (effDict s st fs (pyLower (pyOrS (lang.getD "") s.ui_language))) key) then
           (PyDict.lookup?
              (effDict s st fs (pyLower (pyOrS (lang.getD "") s.ui_language))) key).getD .null
         else if pyTruthyOpt (PyDict.lookup?
              (effDict s (effState s st fs (pyLower (pyOrS (lang.getD "") s.ui_language))) fs
                (pyLower s.default_language)) key) then
           (PyDict.lookup?
              (effDict s (effState s st fs (pyLower (pyOrS (lang.getD "") s.ui_language))) fs
                (pyLower s.default_language)) key).getD .null
         else .str key,
         if pyTruthyOpt (PyDict.lookup?
              (effDict s st fs (pyLower (pyOrS (lang.getD "") s.ui_language))) key) then
           effState s st fs (pyLower (pyOrS (lang.getD "") s.ui_language))
         else
           effState s (effState s st fs (pyLower (pyOrS (lang.getD "") s.ui_language))) fs
             (pyLower s.default_language)) := by
  unfold getW
  dsimp only
  rw [load_langW_true]
  dsimp only
  split_ifs with h1 h2
  · rfl
  · rw [load_langW_true]
    dsimp only
    rw [if_pos h2]
  · rw [load_langW_true]
    dsimp only
    rw [if_neg h2]

/-- The spec's `get` example, run on the intended service: an empty Czech
dictionary, canonical English `{"missing_key": "missing_key"}`, and
`get("missing_key")` returns the key itself. -/
theorem get_intended_example :
    getW true settingsCs LocState.empty fsGetExample "missing_key" none =
      .ok (.str "missing_key",
        ⟨[("cs", []), ("en", [("missing_key", .str "missing_key")])],
         [("cs", 5), ("en", 7)]⟩) := rfl

/-- The spec's `sync` example, run on the intended service: canonical
`{"hello":"hello","bye":"bye"}`, target `{"hello":"ahoj","old":"x"}`; the
sync reports a change, rewrites the target file as
`{"hello":"ahoj","bye":""}` (translation kept, extra key dropped, missing key
added empty) and leaves the canonical file alone. -/
theorem sync_intended_example :
    ∃ fs', syncW true settingsBare LocState.empty fsSyncExample 2 "cs" =
      .ok (true, syncedState, fs') ∧
      fs' "locales/cs.json" =
        some ⟨2, some (.obj [("hello", .str "ahoj"), ("bye", .str "")])⟩ ∧
      fs' "locales/en.json" = fsSyncExample "locales/en.json" :=
  ⟨_, rfl, rfl, rfl⟩

/-- Idempotence of the intended sync on the example: starting from the state
and directory the first call produced, a second call reports no change and
touches nothing. -/
theorem sync_intended_example_idem :
    syncW true settingsBare syncedState fsSynced 3 "cs" =
      .ok (false, syncedState, fsSynced) := rfl

/-!  ## The sync loops in general (dictionary level)  -/

/-- Unfolding equation of `PyDict.lookup?` on a cons cell. -/
theorem lookup_cons {α : Type} (p : String × α) (rest : List (String × α))
    (k : String) :
    PyDict.lookup? (p :: rest) k =
      if p.1 = k then some p.2 else PyDict.lookup? rest k := rfl

/-- Unfolding equation of `PyDict.contains` on a cons cell. -/
theorem contains_cons {α : Type} (p : String × α) (rest : List (String × α))
    (k : String) :
    PyDict.contains (p :: rest) k =
      if p.1 = k then true else PyDict.contains rest k := by
  unfold PyDict.contains
  rw [lookup_cons, apply_ite Option.isSome]
  rfl

/-- A key present in an association list is `contains`-reported. -/
theorem contains_of_mem {α : Type} :
    ∀ (l : List (String × α)) (kv : String × α), kv ∈ l →
      PyDict.contains l kv.1 = true := by
  intro l
  induction l with
  | nil => intro kv h; cases h
  | cons p rest ih =>
      intro kv h
      rw [contains_cons]
      by_cases hk : p.1 = kv.1
      · rw [if_pos hk]
      · rw [if_neg hk]
        rcases List.mem_cons.mp h with h | h
        · subst h; exact absurd rfl hk
        · exact ih kv h

/-- Lookup in a concatenation prefers the left list when it has the key. -/
theorem lookup_append_left {α : Type} :
    ∀ (l1 l2 : List (String × α)) (k : String),
      (PyDict.lookup? l1 k).isSome = true →
      PyDict.lookup? (l1 ++ l2) k = PyDict.lookup? l1 k := by
  intro l1
  induction l1 with
  | nil => intro l2 k h; simp [PyDict.lookup?] at h
  | cons p rest ih =>
      intro l2 k h
      rw [lookup_cons] at h
      rw [List.cons_append, lookup_cons, lookup_cons]
      by_cases hk : p.1 = k
      · rw [if_pos hk, if_pos hk]
      · rw [if_neg hk] at h
        rw [if_neg hk, if_neg hk]
        exact ih l2 k h

/-- Lookup in a concatenation falls through to the right list when the left
list is missing the key. -/
theorem lookup_append_missing {α : Type} :
    ∀ (l1 l2 : List (String × α)) (k : String),
      PyDict.contains l1 k = false →
      PyDict.lookup? (l1 ++ l2) k = PyDict.lookup? l2 k := by
  intro l1
  induction l1 with
  | nil => intro l2 k _; rfl
  | cons p rest ih =>
      intro l2 k h
      rw [contains_cons] at h
      rw [List.cons_append, lookup_cons]
      by_cases hk : p.1 = k
      · rw [if_pos hk] at h; cases h
      · rw [if_neg hk] at h ⊢
        exact ih l2 k h

/-- `contains` distributes over concatenation as boolean or. -/
theorem contains_append {α : Type} :
    ∀ (l1 l2 : List (String × α)) (k : String),
      PyDict.contains (l1 ++ l2) k = (PyDict.contains l1 k || PyDict.contains l2 k) := by
  intro l1
  induction l1 with
  | nil => intro l2 k; simp [PyDict.contains, PyDict.lookup?]
  | cons p rest ih =>
      intro l2 k
      rw [List.cons_append, contains_cons, contains_cons]
      by_cases hk : p.1 = k
      · rw [if_pos hk, if_pos hk, Bool.true_or]
      · rw [if_neg hk, if_neg hk, ih]

/-- `contains` implies an `any` witness over the entries. -/
theorem any_of_contains {α : Type} :
    ∀ (l : List (String × α)) (k : String), PyDict.contains l k = true →
      l.any (fun kv => kv.1 == k) = true := by
  intro l
  induction l with
  | nil => intro k h; simp [PyDict.contains, PyDict.lookup?] at h
  | cons p rest ih =>
      intro k h
      rw [contains_cons] at h
      rw [List.any_cons]
      by_cases hk : p.1 = k
      · rw [show (p.1 == k) = true from beq_iff_eq.mpr hk, Bool.true_or]
      · rw [if_neg hk] at h
        rw [ih k h, Bool.or_true]

/-- Pointwise equal predicates give the same `any` over a list. -/
theorem anyCongr {α : Type} (f g : α → Bool) :
    ∀ (l : List α), (∀ x ∈ l, f x = g x) → l.any f = l.any g := by
  intro l
  induction l with
  | nil => intro _; rfl
  | cons a rest ih =>
      intro h
      rw [List.any_cons, List.any_cons, h a (List.mem_cons_self a rest),
        ih (fun x hx => h x (List.mem_cons_of_mem a hx))]

/-- Lookup through a key-filter: kept exactly when the key passes. -/
theorem lookup_filter_key {α : Type} (q : String → Bool) :
    ∀ (l : List (String × α)) (k : String),
      PyDict.lookup? (l.filter (fun kv => q kv.1)) k =
        if q k then PyDict.lookup? l k else none := by
  intro l
  induction l with
  | nil => intro k; simp [PyDict.lookup?]
  | cons p rest ih =>
      intro k
      rw [List.filter_cons]
      by_cases hq : q p.1 = true
      · rw [if_pos hq, lookup_cons, lookup_cons]
        by_cases hk : p.1 = k
        · rw [if_pos hk, if_pos hk, if_pos (hk ▸ hq)]
        · rw [if_neg hk, if_neg hk, ih]
      · rw [if_neg hq, ih, lookup_cons]
        by_cases hk : p.1 = k
        · subst hk
          rw [if_neg hq, if_neg hq]
        · rw [if_neg hk]

/-- The removal loop keeps exactly the target entries whose key is canonical:
its lookup is the target lookup gated by canonical membership. -/
theorem syncRemove_lookup (src tgt : List (String × JValue)) (k : String) :
    PyDict.lookup? (syncRemove src tgt).1 k =
      if PyDict.contains src k then PyDict.lookup? tgt k else none :=
  lookup_filter_key (fun kk => PyDict.contains src kk) tgt k

/-- Key membership after the removal loop: canonical and previously present. -/
theorem syncRemove_contains (src tgt : List (String × JValue)) (k : String) :
    PyDict.contains (syncRemove src tgt).1 k =
      (PyDict.contains src k && PyDict.contains tgt k) := by
  rw [PyDict.contains, syncRemove_lookup]
  by_cases hs : PyDict.contains src k = true
  · rw [if_pos hs, hs, Bool.true_and]; rfl
  · rw [if_neg hs, Bool.eq_false_iff.mpr hs, Bool.false_and]; rfl

/-- Key membership after the addition pass: previously present or canonical. -/
theorem syncAddGo_contains (k : String) :
    ∀ (src : List (String × JValue)) (acc : List (String × JValue) × Bool),
      PyDict.contains (syncAddGo src acc).1 k =
        (PyDict.contains acc.1 k || src.any (fun kv => kv.1 == k)) := by
  intro src
  induction src with
  | nil => intro acc; simp [syncAddGo]
  | cons p rest ih =>
      intro acc
      unfold syncAddGo
      rw [List.any_cons]
      by_cases hc : PyDict.contains acc.1 p.1 = true
      · rw [if_pos hc, ih]
        by_cases hk : p.1 = k
        · subst hk
          simp [hc]
        · rw [beq_false_of_ne hk, Bool.false_or]
      · rw [if_neg hc, ih]
        dsimp only
        rw [contains_append]
        by_cases hk : p.1 = k
        · subst hk
          have h1 : PyDict.contains [(p.1, JValue.str "")] p.1 = true := by
            rw [contains_cons]; exact if_pos rfl
          simp [h1]
        · have h1 : PyDict.contains [(p.1, JValue.str "")] k = false := by
            rw [contains_cons, if_neg hk]; rfl
          rw [h1, beq_false_of_ne hk, Bool.or_false, Bool.false_or]

/-- The addition pass never rewrites a value that is already present. -/
theorem syncAddGo_preserves (k : String) :
    ∀ (src : List (String × JValue)) (acc : List (String × JValue) × Bool),
      (PyDict.lookup? acc.1 k).isSome = true →
      PyDict.lookup? (syncAddGo src acc).1 k = PyDict.lookup? acc.1 k := by
  intro src
  induction src with
  | nil => intro acc _; rfl
  | cons p rest ih =>
      intro acc h
      unfold syncAddGo
      by_cases hc : PyDict.contains acc.1 p.1 = true
      · rw [if_pos hc]
        exact ih acc h
      · rw [if_neg hc]
        have hl := lookup_append_left acc.1 [(p.1, JValue.str "")] k h
        rw [ih _ (by dsimp only; rw [hl]; exact h)]
        exact hl

/-- The addition pass gives a missing canonical key the empty-string value. -/
theorem syncAddGo_adds (k : String) :
    ∀ (src : List (String × JValue)) (acc : List (String × JValue) × Bool),
      PyDict.contains acc.1 k = false →
      src.any (fun kv => kv.1 == k) = true →
      PyDict.lookup? (syncAddGo src acc).1 k = some (.str "") := by
  intro src
  induction src with
  | nil => intro acc _ hany; cases hany
  | cons p rest ih =>
      intro acc hacc hany
      rw [List.any_cons] at hany
      unfold syncAddGo
      by_cases hc : PyDict.contains acc.1 p.1 = true
      · rw [if_pos hc]
        by_cases hk : p.1 = k
        · rw [hk, hacc] at hc; cases hc
        · rw [beq_false_of_ne hk, Bool.false_or] at hany
          exact ih acc hacc hany
      · rw [if_neg hc]
        by_cases hk : p.1 = k
        · subst hk
          have hl : PyDict.lookup? (acc.1 ++ [(p.1, JValue.str "")]) p.1 =
              some (.str "") := by
            rw [lookup_append_missing acc.1 _ p.1 hacc, lookup_cons]
            exact if_pos rfl
          rw [syncAddGo_preserves p.1 rest _ (by dsimp only; rw [hl]; rfl)]
          exact hl
        · rw [beq_false_of_ne hk, Bool.false_or] at hany
          apply ih _ ?_ hany
          dsimp only
          rw [contains_append, hacc, Bool.false_or, contains_cons, if_neg hk]
          rfl

/-- The addition pass leaves an accumulator whose dict already holds every
canonical key untouched. -/
theorem syncAddGo_noop :
    ∀ (src : List (String × JValue)) (acc : List (String × JValue) × Bool),
      (∀ kv ∈ src, PyDict.contains acc.1 kv.1 = true) →
      syncAddGo src acc = acc := by
  intro src
  induction src with
  | nil => intro acc _; rfl
  | cons p rest ih =>
      intro acc h
      unfold syncAddGo
      rw [if_pos (h p (List.mem_cons_self p rest))]
      exact ih acc (fun kv hkv => h kv (List.mem_cons_of_mem p hkv))

/-- The addition pass reports a change exactly when some canonical key was
missing from the incoming dict (or a change was already reported). -/
theorem syncAddGo_flag :
    ∀ (src : List (String × JValue)) (acc : List (String × JValue) × Bool),
      (syncAddGo src acc).2 =
        (acc.2 || src.any (fun kv => !PyDict.contains acc.1 kv.1)) := by
  intro src
  induction src with
  | nil => intro acc; simp [syncAddGo]
  | cons p rest ih =>
      intro acc
      unfold syncAddGo
      rw [List.any_cons]
      by_cases hc : PyDict.contains acc.1 p.1 = true
      · rw [if_pos hc, ih, hc]
        rfl
      · rw [if_neg hc, ih]
        dsimp only
        rw [Bool.eq_false_iff.mpr hc]
        simp

/-- After a full sync pass, the target's key set is exactly the canonical
key set. -/
theorem sync_dicts_keyset (src tgt : List (String × JValue)) (k : String) :
    PyDict.contains (syncResult src tgt) k = PyDict.contains src k := by
  unfold syncResult syncAdd
  rw [syncAddGo_contains]
  dsimp only
  rw [syncRemove_contains]
  cases hs : PyDict.contains src k with
  | false =>
      rw [Bool.false_and, Bool.false_or]
      cases hany : src.any (fun kv => kv.1 == k) with
      | false => rfl
      | true =>
          rcases List.any_eq_true.mp hany with ⟨kv, hmem, hkv⟩
          have hco := contains_of_mem src kv hmem
          rw [eq_of_beq hkv] at hco
          rw [hco] at hs
          cases hs
  | true =>
      rw [Bool.true_and]
      cases ht : PyDict.contains tgt k with
      | false => rw [Bool.false_or, any_of_contains src k hs]
      | true => rw [Bool.true_or]

/-- A full sync pass keeps the existing translation of every canonical key. -/
theorem sync_dicts_preserve (src tgt : List (String × JValue)) (k : String)
    (v : JValue) (hs : PyDict.contains src k = true)
    (ht : PyDict.lookup? tgt k = some v) :
    PyDict.lookup? (syncResult src tgt) k = some v := by
  have h1 : PyDict.lookup? (syncRemove src tgt).1 k = some v := by
    rw [syncRemove_lookup, if_pos hs, ht]
  unfold syncResult syncAdd
  rw [syncAddGo_preserves k src _ (by rw [h1]; rfl), h1]

/-- A full sync pass gives every canonical key that the target was missing
the empty-string value. -/
theorem sync_dicts_added (src tgt : List (String × JValue)) (k : String)
    (hs : PyDict.contains src k = true) (ht : PyDict.contains tgt k = false) :
    PyDict.lookup? (syncResult src tgt) k = some (.str "") := by
  unfold syncResult syncAdd
  apply syncAddGo_adds
  · rw [syncRemove_contains, ht, Bool.and_false]
  · exact any_of_contains src k hs

/-- The two loops together report a change exactly when the target had an
extra key or was missing a canonical one. -/
theorem sync_dicts_changed (src tgt : List (String × JValue)) :
    ((syncRemove src tgt).2 || (syncAdd src (syncRemove src tgt).1).2) =
      (tgt.any (fun kv => !PyDict.contains src kv.1) ||
        src.any (fun kv => !PyDict.contains tgt kv.1)) := by
  unfold syncAdd
  rw [syncAddGo_flag]
  dsimp only
  rw [Bool.false_or]
  congr 1
  apply anyCongr
  intro kv hkv
  rw [syncRemove_contains, contains_of_mem src kv hkv, Bool.true_and]

/-- A second sync pass against the same canonical dictionary changes nothing:
the removal loop keeps everything and the addition loop adds nothing, so both
report no change. -/
theorem sync_dicts_idem (src tgt : List (String × JValue)) :
    syncRemove src (syncResult src tgt) = (syncResult src tgt, false) ∧
    syncAdd src (syncResult src tgt) = (syncResult src tgt, false) := by
  have hall : ∀ kv ∈ syncResult src tgt, PyDict.contains src kv.1 = true := by
    intro kv hkv
    rw [← sync_dicts_keyset src tgt kv.1]
    exact contains_of_mem _ kv hkv
  constructor
  · unfold syncRemove
    rw [List.filter_eq_self.mpr (fun kv hkv => hall kv hkv)]
    rw [show ((syncResult src tgt).any (fun kv => !PyDict.contains src kv.1)) = false by
      rw [List.any_eq_false]
      intro kv hkv
      rw [hall kv hkv]
      exact Bool.noConfusion]
  · unfold syncAdd
    refine syncAddGo_noop src (syncResult src tgt, false) ?_
    intro kv hkv
    dsimp only
    rw [sync_dicts_keyset]
    exact contains_of_mem src kv hkv

/-!  ## SecretCodec  -/

mutual
theorem decodeSecrets_sound (d : String → String) :
    (v : JValue) → SecretsDecoded d v (decodeSecrets d v)
  | .null => .null
  | .bool b => .bool b
  | .num n => .num n
  | .str s => by
      unfold decodeSecrets
      by_cases h : pyStarts s SECRET_MARKER = true
      · rw [if_pos h]
        exact .marked s h
      · rw [if_neg h]
        exact .plain s (by simpa using h)
  | .arr xs => .arr xs _ (decodeSecretsList_sound d xs)
  | .obj kvs => .obj kvs _ (decodeSecretsFields_sound d kvs)
theorem decodeSecretsList_sound (d : String → String) :
    (xs : List JValue) → SecretsDecodedList d xs (decodeSecretsList d xs)
  | [] => .nil
  | x :: xs => .cons (decodeSecrets_sound d x) (decodeSecretsList_sound d xs)
theorem decodeSecretsFields_sound (d : String → String) :
    (kvs : List (String × JValue)) → SecretsDecodedFields d kvs (decodeSecretsFields d kvs)
  | [] => .nil
  | (k, v) :: kvs => .cons k (decodeSecrets_sound d v) (decodeSecretsFields_sound d kvs)
end

/-- C3 (spec-modelled): `SecretCodec` replaces, in place, every string value
at any depth that begins with the reserved marker by the decrypt capability
applied to the remainder of the string, leaves all other values unchanged,
and walks maps value-wise and sequences element-wise — stated both through
the independent `SecretsDecoded` relation and as equations; finally, the
spec's own example with a capability mapping `"ABC123"` to `"secret"`. -/
theorem c3_secret_codec (decrypt : String → String) :
    (∀ v : JValue, SecretsDecoded decrypt v (decodeSecrets decrypt v)) ∧
    (∀ s : String, decodeSecrets decrypt (.str s) =
      .str (if pyStarts s SECRET_MARKER then decrypt (stripMarker s) else s)) ∧
    (∀ kvs, decodeSecrets decrypt (.obj kvs) = .obj (decodeSecretsFields decrypt kvs)) ∧
    (∀ k v kvs, decodeSecretsFields decrypt ((k, v) :: kvs) =
      (k, decodeSecrets decrypt v) :: decodeSecretsFields decrypt kvs) ∧
    (∀ xs, decodeSecrets decrypt (.arr xs) = .arr (decodeSecretsList decrypt xs)) ∧
    (∀ x xs, decodeSecretsList decrypt (x :: xs) =
      decodeSecrets decrypt x :: decodeSecretsList decrypt xs) ∧
    (decodeSecrets decrypt .null = .null) ∧
    (∀ b, decodeSecrets decrypt (.bool b) = .bool b) ∧
    (∀ n : Int, decodeSecrets decrypt (.num n) = .num n) ∧
    (decodeSecrets (fun c => if c = "ABC123" then "secret" else c)
        (.obj [("auth", .obj [("token", .str "<encrypted>ABC123")]),
               ("items", .arr [.str "<encrypted>ABC123", .str "plain", .num 5]),
               ("plain", .str "keep")]) =
      .obj [("auth", .obj [("token", .str "secret")]),
            ("items", .arr [.str "secret", .str "plain", .num 5]),
            ("plain", .str "keep")]) := by
  refine ⟨decodeSecrets_sound decrypt, ?_, fun kvs => by rfl, fun k v kvs => by rfl,
    fun xs => by rfl, fun x xs => by rfl, by rfl, fun b => by rfl, fun n => by rfl, ?_⟩
  · intro s
    unfold decodeSecrets
    split_ifs <;> rfl
  · have h1 : pyStarts "<encrypted>ABC123" SECRET_MARKER = true := by decide
    have h2 : pyStarts "plain" SECRET_MARKER = false := by decide
    have h3 : pyStarts "keep" SECRET_MARKER = false := by decide
    have h4 : stripMarker "<encrypted>ABC123" = "ABC123" := by decide
    simp [decodeSecrets, decodeSecretsFields, decodeSecretsList, h1, h2, h3, h4]

end DictMan
